import Mathlib

/-!
# KVAT (Key Value Address Table) — verification of spec claims

Shallow embedding of `src/kvat/kvat.c` (KVAT 0.3/0.5.1 by repixen).

Modeling conventions:
* Storage (TM4C EEPROM) is modeled as infallible: `EEPROMProgram`/`EEPROMRead`
  always succeed, and heap allocation succeeds.  The failure branches of the C
  code (`tableError`, `heapError`, `fetchFault`) are therefore dead in this
  model and noted by comments at the place where the C code checks them.
* The entry table (`KVATKeyValueEntry` records at `INDEXSTART + sizeof(KVATIndex)
  + 4*i`) and the page region (`pageBeginAddress + n*pageSize`) occupy disjoint
  storage regions, so storage is split into an entry-table component and a page
  component.  Pages are 12-byte lists; the table is a function from positions.
* The index is written once by `formatMemory` with the compile-time constants
  (`PAGESIZE = 12`, `PAGECOUNT = 128`) and never changed, so `index->pageSize`
  and `index->pageCount` appear as the constants `PAGESIZE`, `PAGECOUNT`.
* C byte buffers (`char*` keys, `void*` values) are `List Nat`; reading byte
  `i` of a buffer is `l.getD i 0`, i.e. bytes past the end of the modeled
  buffer read as 0 (in C those reads are past the caller's object).
* `unsigned char` truncation is written `% 256` exactly where the C code
  assigns a wider value into a byte (`PageNumber`, `remains`, `pagesNeeded`).
-/

namespace KVAT

set_option maxRecDepth 100000

/-! ## Formatting limits (kvat.c lines 22-36) -/

def PAGESIZE : Nat := 12
def PAGECOUNT : Nat := 128
def STRINGKEYSTDLEN : Nat := 16

/-! ## Table entry metadata bits (kvat.c lines 46-64) -/

def MDEFAULT : Nat := 0x00
def MACTIVE : Nat := 0x01
def MOPEN : Nat := 0x02
def MKC_ISMULTIPLE : Nat := 0x04
def MVC_ISMULTIPLE : Nat := 0x08
def MKF_STRING : Nat := 0x00

/-! ## Types -/

/-- `KVATException` enum of kvat.h lines 18-30 (same order). -/
inductive KVATException where
  | none
  | unknown
  | invalidAccess
  | notFound
  | fetchFault
  | insufficientSpace
  | storageFault
  | heapError
  | recordFault
  | tableError
  | keyDuplicate
deriving Repr, DecidableEq

/-- `KVATKeyValueEntry` (kvat.c lines 85-90): one 4-byte record of the index
table.  All four fields are single bytes. -/
structure KVATKeyValueEntry where
  metadata : Nat
  keyPage : Nat
  valuePage : Nat
  remains : Nat
deriving Repr, DecidableEq

def emptyEntry : KVATKeyValueEntry := ⟨0, 0, 0, 0⟩

instance : Inhabited KVATKeyValueEntry := ⟨emptyEntry⟩

/-- The engine state: the module statics of kvat.c (`didInit`, `pageRecord`)
together with the storage contents (entry table and page region).  The
`index` static always holds the format constants, see the header comment. -/
structure KVATState where
  didInit : Bool
  /-- entry table on storage; position `i` is `readTableEntry(_, i)`. -/
  entries : Nat → KVATKeyValueEntry
  /-- page region on storage; `pageMem n` is the 12 bytes of page `n`. -/
  pageMem : Nat → List Nat
  /-- runtime occupancy record; `pageRecord j` is byte `j` of the C array. -/
  pageRecord : Nat → Nat

/-- Pointwise function update used for table/page/record writes. -/
def updf {α : Type} (f : Nat → α) (n : Nat) (v : α) : Nat → α :=
  fun m => if m = n then v else f m

/-! ## C string primitives (string.h, as used by kvat.c) -/

/-- `strlen` on a zero-extended byte buffer. -/
def cstrlen : List Nat → Nat
  | [] => 0
  | c :: cs => if c = 0 then 0 else cstrlen cs + 1

/-- `strncmp(a, b, n) == 0`: equal up to the first NUL or `n` bytes. -/
def cstrncmpEq : List Nat → List Nat → Nat → Bool
  | _, _, 0 => true
  | a, b, Nat.succ n =>
    if a.headD 0 = b.headD 0 then
      if a.headD 0 = 0 then true else cstrncmpEq a.tail b.tail n
    else false

/-- Bytes `[off, off+len)` of a zero-extended buffer (a `memcpy` source
slice). -/
def byteSlice (d : List Nat) (off len : Nat) : List Nat :=
  (List.range len).map (fun j => d.getD (off + j) 0)

/-! ## Table codec (kvat.c lines 203-274)

`saveTableEntry` / `readTableEntry` are storage program/read through aligned
scratch buffers; with infallible storage they become table lookup/update. -/

def saveTableEntry (s : KVATState) (e : KVATKeyValueEntry) (pos : Nat) : KVATState :=
  { s with entries := updf s.entries pos e }

def readTableEntry (s : KVATState) (pos : Nat) : KVATKeyValueEntry :=
  s.entries pos

/-- Scan loop of `getEmptyTableEntryNumber` (kvat.c lines 265-272): from
position `n`, `fuel` positions remaining before `entryN < entryCount` fails. -/
def findEmptyEntry (s : KVATState) (n : Nat) : Nat → Nat
  | 0 => 0
  | Nat.succ fuel =>
    if (readTableEntry s n).metadata &&& (MACTIVE ||| MOPEN) = 0 then n
    else findEmptyEntry s (n + 1) fuel

/-- `getEmptyTableEntryNumber` (kvat.c lines 257-274): first empty entry in
`[1, PAGECOUNT)`, 0 if all are active or open. -/
def getEmptyTableEntryNumber (s : KVATState) : Nat :=
  findEmptyEntry s 1 (PAGECOUNT - 1)

/-- `setEntryMetadata` (kvat.c lines 167-170): clear `mask`, set `value&mask`.
`~mask` on the byte is `255 ^^^ mask`. -/
def setEntryMetadata (e : KVATKeyValueEntry) (mask value : Nat) : KVATKeyValueEntry :=
  { e with metadata := (e.metadata &&& (255 ^^^ mask)) ||| (value &&& mask) }

/-! ## Paging engine (kvat.c lines 323-403) -/

/-- `getNextPageNumberFromPage` / `readNextPageNumber` (kvat.c lines 375-396):
the link byte is byte 0 of the page. -/
def readNextPageNumber (s : KVATState) (pageNumber : Nat) : Nat :=
  (s.pageMem pageNumber).headD 0

/-- `saveNextPageNumber` (kvat.c lines 398-403): reads the first word of the
page, rewrites its first byte, writes it back; net effect is byte 0 of the
page becomes `nextPageNumber` and all other bytes are preserved. -/
def saveNextPageNumber (s : KVATState) (pageNumber nextPageNumber : Nat) : KVATState :=
  { s with pageMem := updf s.pageMem pageNumber ((s.pageMem pageNumber).set 0 nextPageNumber) }

/-! ## Page record (bitmap) (kvat.c lines 421-594) -/

/-- `getPageRecordSize` (kvat.c lines 421-424): `(pageCount/8)+1` bytes. -/
def pageRecordSize : Nat := PAGECOUNT / 8 + 1

/-- `markPageInRecord` (kvat.c lines 432-443). -/
def markPageInRecord (s : KVATState) (pageNumber : Nat) (isUsed : Bool) : KVATState :=
  let seg := pageNumber / 8
  let bit := pageNumber % 8
  let b := s.pageRecord seg
  let b' := if isUsed then b ||| (1 <<< bit) else b &&& (255 ^^^ (1 <<< bit))
  { s with pageRecord := updf s.pageRecord seg b' }

/-- The nibble/pair/bit descent of `getEmptyPageNumber` (kvat.c lines
476-504) on one record byte `b ≠ 0xFF`; returns the bit position found. -/
def lowBitPos (b : Nat) : Nat :=
  let p1 := if (b ||| 0xF0) ≠ 0xFF then (b &&& 0x0F, 0) else (b >>> 4, 4)
  let p2 := if (p1.1 ||| 0xC) ≠ 0xF then (p1.1 &&& 0x3, p1.2) else (p1.1 >>> 2, p1.2 + 2)
  if (p2.1 ||| 0x2) ≠ 0x3 then p2.2 else p2.2 + 1

/-- Byte-wise scan of `getEmptyPageNumber` (kvat.c lines 473-507): first
segment from `seg` whose byte differs from 0xFF; when the loop runs out
(`fuel = 0`) the C loop ends with `recordSegment = pageRecordSize`. -/
def findNonFullSeg (r : Nat → Nat) (seg : Nat) : Nat → Nat
  | 0 => seg
  | Nat.succ fuel => if r seg ≠ 255 then seg else findNonFullSeg r (seg + 1) fuel

/-- `getEmptyPageNumber` (kvat.c lines 468-516).  `emptyPageFound` is a
`PageNumber` (unsigned char), hence the `% 256`. -/
def getEmptyPageNumber (shouldMarkAsUsed : Bool) (s : KVATState) : Nat × KVATState :=
  let seg := findNonFullSeg s.pageRecord 0 pageRecordSize
  let bit := if seg < pageRecordSize then lowBitPos (s.pageRecord seg) else 0
  let empty := (seg * 8 + bit) % 256
  if shouldMarkAsUsed && empty ≠ 0 then (empty, markPageInRecord s empty true)
  else (empty, s)

/-- `followPageChainAndSetPageRecord` loop (kvat.c lines 533-547): walk from
`cur`, marking each page, bounded by `fuel` hops. -/
def followChainAux (s : KVATState) (cur : Nat) (isActive isChainMultiple : Bool) :
    Nat → KVATState
  | 0 => s
  | Nat.succ fuel =>
    if cur = 0 then s
    else
      let s' := markPageInRecord s cur isActive
      let next := if isChainMultiple then readNextPageNumber s' cur else 0
      followChainAux s' next isActive isChainMultiple fuel

/-- `followPageChainAndSetPageRecord` (kvat.c lines 526-548). -/
def followPageChainAndSetPageRecord (s : KVATState) (chainStart : Nat)
    (isActive isChainMultiple : Bool) : KVATState :=
  if chainStart = 0 then s
  else followChainAux s chainStart isActive isChainMultiple PAGECOUNT

/-- Entry loop of `updatePageRecord` (kvat.c lines 580-591). -/
def updateRecordEntries (s : KVATState) (n : Nat) : Nat → KVATState
  | 0 => s
  | Nat.succ fuel =>
    let entry := readTableEntry s n
    let s' :=
      if entry.metadata &&& MACTIVE ≠ 0 then
        let s1 := followPageChainAndSetPageRecord s entry.keyPage true
          (entry.metadata &&& MKC_ISMULTIPLE ≠ 0)
        followPageChainAndSetPageRecord s1 entry.valuePage true
          (entry.metadata &&& MVC_ISMULTIPLE ≠ 0)
      else s
    updateRecordEntries s' (n + 1) fuel

/-- `updatePageRecord` (kvat.c lines 556-594): zero the record, reserve page
0, then mark the chains of every active entry.  (The `malloc` of the record
is infallible here, so the function cannot return false.) -/
def updatePageRecord (s : KVATState) : KVATState :=
  let s0 : KVATState := { s with pageRecord := fun _ => 0 }
  let s1 := markPageInRecord s0 0 true
  updateRecordEntries s1 1 (PAGECOUNT - 1)

/-! ## Fetch (kvat.c lines 615-685) -/

/-- Chain size loop of `fetchData` (kvat.c lines 621-627): `count` starts at
1 and the loop runs while `count < PAGECOUNT`, so `fuel = PAGECOUNT - count`. -/
def chainCountAux (s : KVATState) (cur : Nat) : Nat → Nat → Nat
  | 0, count => count
  | Nat.succ fuel, count =>
    let cur' := readNextPageNumber s cur
    if cur' = 0 then count else chainCountAux s cur' fuel (count + 1)

/-- Assembly loop of `fetchData` (kvat.c lines 660-674): read `cnt` pages
starting at `cur`, dropping the `pns` link bytes, copying `pds` payload bytes
per page (`trim` bytes on the last page when `trim ≠ 0`). -/
def fetchAux (s : KVATState) (cur : Nat) (pns pds trim : Nat) : Nat → List Nat
  | 0 => []
  | Nat.succ c =>
    let pg := s.pageMem cur
    let amt := if trim ≠ 0 && c = 0 then trim else pds
    ((pg.drop pns).take amt) ++ fetchAux s (pg.headD 0) pns pds trim c

structure FetchResult where
  /-- contents of the returned buffer (heap or preallocated). -/
  bytes : List Nat
  /-- the `maxSize` out-parameter: `pageCount * pageDataSize`. -/
  maxSize : Nat
deriving Repr, DecidableEq

/-- `fetchData` (kvat.c lines 615-685).  `preallocSize` and `force` model the
`preallocBufferSize` / `forceFetchOnPreallocBuffer` arguments; whether the
bytes land in the preallocated buffer or a fresh heap buffer does not change
them, so the buffer choice itself is not modeled.  In the non-forced mode the
buffer is one byte longer than the payload and NUL-terminated; when forcing
into a too-small buffer the traversal is trimmed to `preallocSize` bytes
(which overwrites the terminator slot).  Heap allocation is infallible here,
so the NULL returns of the C code cannot happen. -/
def fetchData (s : KVATState) (startPage : Nat) (isChainMultiple : Bool)
    (preallocSize : Nat) (force : Bool) : FetchResult :=
  let cnt := if isChainMultiple then chainCountAux s startPage (PAGECOUNT - 1) 1 else 1
  let pns := if isChainMultiple then 1 else 0
  let pds := PAGESIZE - pns
  let recordSize := pds * cnt + 1
  if force && decide (preallocSize < recordSize) then
    let rs := preallocSize
    let cnt' := rs / pds + (if rs % pds ≠ 0 then 1 else 0)
    let trim := rs % pds
    { bytes := fetchAux s startPage pns pds trim cnt', maxSize := cnt' * pds }
  else
    { bytes := fetchAux s startPage pns pds 0 cnt ++ [0], maxSize := cnt * pds }

/-! ## Write (kvat.c lines 703-845) -/

structure WriteResult where
  /-- return value: number of the first page of the chain, 0 on failure. -/
  firstPage : Nat
  /-- the `didSaveInMultipleChain` out-parameter. -/
  savedMultiple : Bool
  /-- the `remains` out-parameter. -/
  remains : Nat
  /-- the `pagesUsed` tracker array (specification-visible). -/
  pagesUsed : List Nat
  state : KVATState

/-- Loop-carried variables of the `writeData` page loop. -/
structure WDLoop where
  reuseNext : Nat
  dryI : Nat
  nextPageN : Nat
  pagesUsed : List Nat
  st : KVATState

/-- Failure unwind of `writeData` (kvat.c lines 776-778): mark pages
`pagesUsed[returnI]` free for `returnI ∈ [dry, i)`. -/
def unwindMarks (st : KVATState) (pagesUsed : List Nat) (dry i : Nat) : KVATState :=
  (List.range' dry (i - dry)).foldl
    (fun acc idx => markPageInRecord acc (pagesUsed.getD idx 0) false) st

/-- One-page-per-iteration loop of `writeData` (kvat.c lines 739-818),
iteration counter `i`, `fuel = pagesNeeded - i`.  Returns the failure flag
(`pagesUsed[0]` was invalidated) and the final loop state. -/
def writeDataLoop (data : List Nat) (reuseMult isMulti : Bool) (pds pagesNeeded : Nat)
    (i : Nat) (L : WDLoop) : Nat → Bool × WDLoop
  | 0 => (false, L)
  | Nat.succ fuel =>
    -- manage & validate paging: advance the reuse cursor (lines 748-765)
    let rd :=
      if L.reuseNext ≠ 0 && reuseMult then
        let r := readNextPageNumber L.st L.reuseNext
        (r, if r = 0 then i + 1 else L.dryI)
      else if L.reuseNext ≠ 0 then (0, i + 1)
      else (L.reuseNext, L.dryI)
    -- cycle to the next page (line 769)
    let thisPageN := L.nextPageN
    if thisPageN = 0 then
      -- storage filled: unwind and fail (lines 773-786)
      let st1 := unwindMarks L.st L.pagesUsed rd.2 i
      let st2 :=
        if reuseMult then saveNextPageNumber st1 (L.pagesUsed.getD (rd.2 - 1) 0) 0
        else st1
      (true, { reuseNext := rd.1, dryI := rd.2, nextPageN := L.nextPageN,
               pagesUsed := L.pagesUsed.set 0 0, st := st2 })
    else
      let pagesUsed' := L.pagesUsed ++ [thisPageN]
      -- ready the next page (lines 795-803)
      let np :=
        if i + 1 < pagesNeeded then
          if rd.1 ≠ 0 then (rd.1, L.st) else getEmptyPageNumber true L.st
        else (0, L.st)
      -- transfer & write (lines 810-816); result of writePage is ignored
      let pageBytes := (if isMulti then [np.1] else []) ++ byteSlice data (pds * i) pds
      let st'' : KVATState :=
        { np.2 with pageMem := updf np.2.pageMem thisPageN pageBytes }
      writeDataLoop data reuseMult isMulti pds pagesNeeded (i + 1)
        { reuseNext := rd.1, dryI := rd.2, nextPageN := np.1,
          pagesUsed := pagesUsed', st := st'' } fuel

/-- `writeData` (kvat.c lines 703-845).  `pagesNeeded` is a `PageNumber`
(byte), hence the `% 256` truncations.  The two early returns (size 0,
infeasible page count) leave the state untouched and report first page 0;
the model fills the unwritten out-parameters with 0/false there. -/
def writeData (s : KVATState) (data : List Nat) (size reuseChainStartPage : Nat)
    (isReuseChainMultiple : Bool) : WriteResult :=
  if size = 0 then ⟨0, false, 0, [], s⟩
  else
    let isMulti := decide (size > PAGESIZE)
    let pns := if isMulti then 1 else 0
    let pds := PAGESIZE - pns
    let pn0 := if isMulti then (size / pds) % 256 else 1
    let pagesNeeded := if isMulti && size % pds ≠ 0 then (pn0 + 1) % 256 else pn0
    if pagesNeeded > PAGECOUNT then ⟨0, false, 0, [], s⟩
    else
      let init :=
        if reuseChainStartPage ≠ 0 then (reuseChainStartPage, s)
        else getEmptyPageNumber true s
      let r := writeDataLoop data isReuseChainMultiple isMulti pds pagesNeeded 0
        { reuseNext := reuseChainStartPage, dryI := 0, nextPageN := init.1,
          pagesUsed := [], st := init.2 } pagesNeeded
      let remains := if size % pds ≠ 0 then pds - size % pds else 0
      -- release the unused tail of the reuse chain (lines 838-840)
      let stFinal :=
        if r.2.reuseNext ≠ 0 then
          followPageChainAndSetPageRecord r.2.st r.2.reuseNext false isReuseChainMultiple
        else r.2.st
      ⟨r.2.pagesUsed.headD 0, isMulti, remains, r.2.pagesUsed, stFinal⟩

/-! ## Lookup (kvat.c lines 859-911) -/

/-- Entry loop of `lookupByKey` (kvat.c lines 874-908); `fuel = PAGECOUNT -
entryN`.  The key of an active entry is fetched through the 16-byte stack
scratch buffer without forcing. -/
def lookupFrom (s : KVATState) (key : List Nat) (isPartialKey : Bool) (keySize : Nat)
    (entryN : Nat) : Nat → Nat
  | 0 => 0
  | Nat.succ fuel =>
    let entry := readTableEntry s entryN
    if entry.metadata &&& MACTIVE ≠ 0 then
      let entryKey := (fetchData s entry.keyPage (entry.metadata &&& MKC_ISMULTIPLE ≠ 0)
        STRINGKEYSTDLEN false).bytes
      let entryKeySize := cstrlen entryKey
      let cmpEq := cstrncmpEq key entryKey keySize
      if ((isPartialKey && decide (keySize ≤ entryKeySize)) ||
          (!isPartialKey && decide (keySize = entryKeySize))) && cmpEq then entryN
      else lookupFrom s key isPartialKey keySize (entryN + 1) fuel
    else lookupFrom s key isPartialKey keySize (entryN + 1) fuel

/-- `lookupByKey` (kvat.c lines 859-911). -/
def lookupByKey (s : KVATState) (key : List Nat) (isPartialKey : Bool)
    (entryNumberSearchStart : Nat) : Nat :=
  let start := if entryNumberSearchStart = 0 then 1 else entryNumberSearchStart
  lookupFrom s key isPartialKey (cstrlen key) start (PAGECOUNT - start)

/-! ## Public save (kvat.c lines 916-980) -/

/-- Tail of `KVATSaveValue` from the value write on (kvat.c lines 953-979).
`e` is the local `tableEntry` (with `OPEN` set, and `keyPage` already updated
on the fresh-key path), `n` the entry position, `keyMult` the
`keySavedInMultipleChain` flag (meaningless on overwrite). -/
def saveValueTail (st : KVATState) (e : KVATKeyValueEntry) (n : Nat)
    (isOverwrite keyMult : Bool) (value : List Nat) (valueSize : Nat) :
    KVATException × KVATState :=
  let overwriteChainStart := if isOverwrite then e.valuePage else 0
  let isOverwriteChainMultiple := e.metadata &&& MVC_ISMULTIPLE ≠ 0
  let wv := writeData st value valueSize overwriteChainStart isOverwriteChainMultiple
  if wv.firstPage = 0 then (KVATException.insufficientSpace, wv.state)
  else
    let md0 :=
      if isOverwrite then e.metadata &&& MKC_ISMULTIPLE
      else if keyMult then MKC_ISMULTIPLE else 0
    let md := md0 ||| MACTIVE |||
      (if wv.savedMultiple then MVC_ISMULTIPLE else 0) ||| MKF_STRING
    let e' : KVATKeyValueEntry :=
      { metadata := md, keyPage := e.keyPage, valuePage := wv.firstPage,
        remains := wv.remains % 256 }
    -- final saveTableEntry (line 976) is infallible here, so the
    -- deinit/tableError branch (line 977) cannot trigger.
    (KVATException.none, saveTableEntry wv.state e' n)

/-- `KVATSaveValue` (kvat.c lines 916-980).  The key is non-null (pointer
nullness is not representable for a value argument); `tableError` branches
are dead with infallible storage. -/
def KVATSaveValue (s : KVATState) (key value : List Nat) (valueSize : Nat) :
    KVATException × KVATState :=
  if !s.didInit then (KVATException.invalidAccess, s)
  else
    let l := lookupByKey s key false 1
    let n := if l = 0 then getEmptyTableEntryNumber s else l
    if n = 0 then (KVATException.insufficientSpace, s)
    else if l ≠ 0 then
      -- overwrite: read the entry, set OPEN, save
      let e1 := { readTableEntry s n with
        metadata := (readTableEntry s n).metadata ||| MOPEN }
      let s1 := saveTableEntry s e1 n
      saveValueTail s1 e1 n true false value valueSize
    else
      -- fresh entry `{}` with OPEN set, saved; then the key chain is written
      let e1 : KVATKeyValueEntry := { metadata := MOPEN, keyPage := 0, valuePage := 0, remains := 0 }
      let s1 := saveTableEntry s e1 n
      let wk := writeData s1 key (cstrlen key + 1) 0 false
      if wk.firstPage = 0 then (KVATException.insufficientSpace, wk.state)
      else
        saveValueTail wk.state { e1 with keyPage := wk.firstPage } n false
          wk.savedMultiple value valueSize

/-! ## Public retrieve (kvat.c lines 997-1032) -/

/-- `a - b` on `uint32_t` (used for `maxSize - tableEntry.remains`). -/
def usub32 (a b : Nat) : Nat :=
  if b ≤ a then a - b else a + 4294967296 - b

structure RetrieveResult where
  exc : KVATException
  /-- contents of `*retrievePointerRef` for a caller that passed a non-null
  reference: `Option.none` = never written, `some Option.none` = set to NULL,
  `some (some bs)` = set to a buffer holding `bs`. -/
  ptrOut : Option (Option (List Nat))
  /-- contents of `*size`: `Option.none` = never written. -/
  sizeOut : Option Nat
deriving Repr, DecidableEq

/-- `KVATRetrieveValue` (kvat.c lines 997-1032).  `hasBuf`/`bufSize` model the
`retrieveBuffer` argument (`force = retrieveBuffer != NULL`); the state is
not modified.  With infallible storage/heap the `tableError` and `fetchFault`
branches (lines 1013, 1019) are dead. -/
def KVATRetrieveValue (s : KVATState) (key : List Nat) (hasBuf : Bool) (bufSize : Nat) :
    RetrieveResult :=
  if !s.didInit then ⟨KVATException.invalidAccess, Option.none, Option.none⟩
  else
    -- reset inout return (lines 1002-1004)
    let n := lookupByKey s key false 1
    if n = 0 then ⟨KVATException.notFound, some Option.none, Option.none⟩
    else
      let e := readTableEntry s n
      let fr := fetchData s e.valuePage (e.metadata &&& MVC_ISMULTIPLE ≠ 0) bufSize hasBuf
      ⟨KVATException.none, some (some fr.bytes), some (usub32 fr.maxSize e.remains)⟩

/-! ## Public rename (kvat.c lines 1049-1093) -/

/-- `KVATChangeKey` (kvat.c lines 1049-1093). -/
def KVATChangeKey (s : KVATState) (currentKey newKey : List Nat) :
    KVATException × KVATState :=
  if !s.didInit then (KVATException.invalidAccess, s)
  else
    let n := lookupByKey s currentKey false 1
    if n = 0 then (KVATException.notFound, s)
    else
      let e := readTableEntry s n
      let currentKeyMult := e.metadata &&& MKC_ISMULTIPLE ≠ 0
      let wr := writeData s newKey (cstrlen newKey + 1) e.keyPage currentKeyMult
      if wr.firstPage = 0 then
        -- try to put the old key back (lines 1070-1083)
        let wr2 := writeData wr.state currentKey (cstrlen currentKey + 1) e.keyPage currentKeyMult
        if wr2.firstPage = 0 then
          let s' := saveTableEntry wr2.state { e with metadata := MDEFAULT } n
          (KVATException.unknown, { s' with didInit := false })
        else (KVATException.insufficientSpace, wr2.state)
      else if wr.savedMultiple ≠ currentKeyMult then
        let e' := setEntryMetadata e MKC_ISMULTIPLE
          (if wr.savedMultiple then MKC_ISMULTIPLE else 0)
        (KVATException.none, saveTableEntry wr.state e' n)
      else (KVATException.none, wr.state)

/-! ## Public delete (kvat.c lines 1098-1123) -/

/-- `KVATDeleteValue` (kvat.c lines 1098-1123). -/
def KVATDeleteValue (s : KVATState) (key : List Nat) : KVATException × KVATState :=
  if !s.didInit then (KVATException.invalidAccess, s)
  else
    let n := lookupByKey s key false 1
    if n = 0 then (KVATException.notFound, s)
    else
      let e := readTableEntry s n
      let s1 := followPageChainAndSetPageRecord s e.keyPage false
        (e.metadata &&& MKC_ISMULTIPLE ≠ 0)
      let s2 := followPageChainAndSetPageRecord s1 e.valuePage false
        (e.metadata &&& MVC_ISMULTIPLE ≠ 0)
      (KVATException.none, saveTableEntry s2 { e with metadata := MDEFAULT } n)

/-! ## Initialization (kvat.c lines 287-314, 1127-1165) -/

/-- Storage right after `formatMemory` (kvat.c lines 293-314): every table
entry saved as `{.metadata = MDEFAULT}` (a zeroed record); the page region is
untouched by formatting and modeled as zero bytes. -/
def formattedState : KVATState :=
  { didInit := false
    entries := fun _ => emptyEntry
    pageMem := fun _ => List.replicate PAGESIZE 0
    pageRecord := fun _ => 0 }

/-- The engine state `KVATInit` (kvat.c lines 1127-1165) produces on
unformatted storage: format, rebuild the page record, set `didInit`. -/
def freshState : KVATState :=
  { updatePageRecord formattedState with didInit := true }

end KVAT

namespace KVAT

/-! ## Generic helper lemmas -/

theorem updf_same {α : Type} (f : Nat → α) (n : Nat) (v : α) : updf f n v n = v := by
  simp [updf]

theorem updf_other {α : Type} (f : Nat → α) (n m : Nat) (v : α) (h : m ≠ n) :
    updf f n v m = f m := by
  simp [updf, h]

/-- The empty-entry scan returns the first free position in `[n, n+fuel)` and
0 when there is none (positions are nonzero throughout). -/
theorem findEmptyEntry_spec (s : KVATState) :
    ∀ (fuel n : Nat), 0 < n →
    (findEmptyEntry s n fuel ≠ 0 →
      n ≤ findEmptyEntry s n fuel ∧ findEmptyEntry s n fuel < n + fuel ∧
      (s.entries (findEmptyEntry s n fuel)).metadata &&& (MACTIVE ||| MOPEN) = 0 ∧
      ∀ m, n ≤ m → m < findEmptyEntry s n fuel →
        (s.entries m).metadata &&& (MACTIVE ||| MOPEN) ≠ 0) ∧
    (findEmptyEntry s n fuel = 0 →
      ∀ m, n ≤ m → m < n + fuel →
        (s.entries m).metadata &&& (MACTIVE ||| MOPEN) ≠ 0) := by
  intro fuel
  induction fuel with
  | zero =>
    intro n hn
    constructor
    · intro h; simp [findEmptyEntry] at h
    · intro _ m hm hm'; omega
  | succ f ih =>
    intro n hn
    by_cases h : (s.entries n).metadata &&& (MACTIVE ||| MOPEN) = 0
    · have hres : findEmptyEntry s n (f + 1) = n := by
        simp [findEmptyEntry, readTableEntry, h]
      rw [hres]
      constructor
      · intro _
        exact ⟨le_refl n, by omega, h, fun m hm hm' => by omega⟩
      · intro h0; omega
    · have hres : findEmptyEntry s n (f + 1) = findEmptyEntry s (n + 1) f := by
        simp [findEmptyEntry, readTableEntry, h]
      rw [hres]
      have ihn := ih (n + 1) (by omega)
      constructor
      · intro hne
        obtain ⟨h1, h2, h3, h4⟩ := ihn.1 hne
        refine ⟨by omega, by omega, h3, ?_⟩
        intro m hm hm'
        rcases Nat.eq_or_lt_of_le hm with rfl | hlt
        · exact h
        · exact h4 m (by omega) hm'
      · intro h0 m hm hm'
        rcases Nat.eq_or_lt_of_le hm with rfl | hlt
        · exact h
        · exact ihn.2 h0 m (by omega) (by omega)

/-! ## Claim theorems: C2, C3, C4, C5, C9, C10 -/

set_option maxRecDepth 100000 in
/-- Claim C2 (code bug): `KVATChangeKey` never scans for the new key, so
renaming onto an existing key returns `none` instead of `keyDuplicate` and
shadows the other entry.  Concretely, after `save("a","1")`, `save("b","2")`,
`change_key("a","b")` succeeds, and afterwards key "a" is gone and key "b"
retrieves the value that was saved under "a". -/
theorem C2_changeKey_no_duplicate_check :
    (KVATChangeKey (KVATSaveValue (KVATSaveValue freshState [97] [49, 0] 2).2
        [98] [50, 0] 2).2 [97] [98]).1 = KVATException.none ∧
    (KVATChangeKey (KVATSaveValue (KVATSaveValue freshState [97] [49, 0] 2).2
        [98] [50, 0] 2).2 [97] [98]).1 ≠ KVATException.keyDuplicate ∧
    (KVATRetrieveValue (KVATChangeKey (KVATSaveValue (KVATSaveValue freshState
        [97] [49, 0] 2).2 [98] [50, 0] 2).2 [97] [98]).2 [97] false 0).exc =
      KVATException.notFound ∧
    (KVATRetrieveValue (KVATChangeKey (KVATSaveValue (KVATSaveValue freshState
        [97] [49, 0] 2).2 [98] [50, 0] 2).2 [97] [98]).2 [98] false 0).ptrOut =
      some (some [49, 0, 0, 0, 0, 0, 0, 0, 0, 0, 0, 0, 0]) := by
  refine ⟨by decide, by decide, by decide, by decide⟩

set_option maxRecDepth 100000 in
/-- Claim C3 (code bug): with every valid page of `[0, PAGECOUNT)` marked used
(the bitmap state a fully occupied store produces: bytes 0..15 are 0xFF and
the spurious 17th record byte is 0), `getEmptyPageNumber` does not return 0:
it finds the zero bits of the 17th byte and returns page 128, one past the
last valid page.  Even when every record byte is 0xFF and the scan runs off
the bitmap, the result is `(17*8) % 256 = 136`, not 0. -/
theorem C3_getEmptyPageNumber_full_not_zero :
    ((List.range PAGECOUNT).all (fun p =>
      decide ((KVATState.mk true (fun _ => emptyEntry) (fun _ => List.replicate PAGESIZE 0)
        (fun j => if j < 16 then 255 else 0)).pageRecord (p / 8) &&& (1 <<< (p % 8)) ≠ 0))
      = true) ∧
    (getEmptyPageNumber true (KVATState.mk true (fun _ => emptyEntry)
      (fun _ => List.replicate PAGESIZE 0) (fun j => if j < 16 then 255 else 0))).1 = 128 ∧
    (getEmptyPageNumber true (KVATState.mk true (fun _ => emptyEntry)
      (fun _ => List.replicate PAGESIZE 0) (fun _ => 255))).1 = 136 ∧
    (128 : Nat) ≠ 0 := by
  refine ⟨by decide, by decide, by decide, by decide⟩

/-- Claim C4: for every successful `writeData` of `size > 0` bytes, the
`remains` out-parameter is `0` when `size` divides evenly into the payload
per page (`PAGESIZE` for single-page chains, `PAGESIZE - 1` for multi-page
chains) and `payload - size % payload` otherwise; `didSaveInMultipleChain`
is set exactly when `size > PAGESIZE`; and the returned first page is the
head of the `pagesUsed` tracker, which is nonempty. -/
theorem C4_writeData_outputs (s : KVATState) (data : List Nat) (size reuseStart : Nat)
    (reuseMult : Bool) (hsize : 0 < size)
    (hok : (writeData s data size reuseStart reuseMult).firstPage ≠ 0) :
    (writeData s data size reuseStart reuseMult).remains =
      (if size % (if size ≤ PAGESIZE then PAGESIZE else PAGESIZE - 1) = 0 then 0
       else (if size ≤ PAGESIZE then PAGESIZE else PAGESIZE - 1) -
         size % (if size ≤ PAGESIZE then PAGESIZE else PAGESIZE - 1)) ∧
    ((writeData s data size reuseStart reuseMult).savedMultiple = true ↔ size > PAGESIZE) ∧
    (writeData s data size reuseStart reuseMult).pagesUsed ≠ [] ∧
    (writeData s data size reuseStart reuseMult).firstPage =
      ((writeData s data size reuseStart reuseMult).pagesUsed).headD 0 := by
  have hns : ¬ (size = 0) := by omega
  by_cases hm : size ≤ (12 : Nat)
  · have hdec : (decide (size > 12)) = false := by
      simp only [decide_eq_false_iff_not]; omega
    have hg : ¬ ((1 : Nat) > 128) := by omega
    simp only [writeData, PAGESIZE, PAGECOUNT, if_neg hns, hdec, Bool.false_eq_true,
      if_false, Bool.false_and, if_pos hm, if_neg hg, Nat.sub_zero] at hok ⊢
    refine ⟨?_, ?_, ?_, trivial⟩
    · by_cases hz : size % 12 = 0 <;> simp [hz]
    · simp only [Bool.false_eq_true, false_iff]; omega
    · intro he; rw [he] at hok; exact hok rfl
  · have hdec : (decide (size > 12)) = true := by
      simp only [decide_eq_true_eq]; omega
    simp only [writeData, PAGESIZE, PAGECOUNT, if_neg hns, hdec, Bool.true_and,
      eq_self_iff_true, if_true, if_neg hm] at hok ⊢
    by_cases hz : size % (12 - 1) = 0
    · have hzd : (decide (size % (12 - 1) ≠ 0)) = false := by
        simp only [decide_eq_false_iff_not]; omega
      simp only [hzd, Bool.false_eq_true, if_false] at hok ⊢
      by_cases hgg : size / (12 - 1) % 256 > 128
      · simp only [if_pos hgg] at hok
        exact absurd rfl hok
      · simp only [if_neg hgg] at hok ⊢
        refine ⟨?_, ?_, ?_, trivial⟩
        · simp [hz]
        · simp only [true_iff]; omega
        · intro he; rw [he] at hok; exact hok rfl
    · have hzd : (decide (size % (12 - 1) ≠ 0)) = true := by
        simp only [decide_eq_true_eq]; omega
      simp only [hzd, eq_self_iff_true, if_true] at hok ⊢
      by_cases hgg : (size / (12 - 1) % 256 + 1) % 256 > 128
      · simp only [if_pos hgg] at hok
        exact absurd rfl hok
      · simp only [if_neg hgg] at hok ⊢
        refine ⟨?_, ?_, ?_, trivial⟩
        · simp [hz]
        · simp only [true_iff]; omega
        · intro he; rw [he] at hok; exact hok rfl
/-- Claim C5: `getEmptyTableEntryNumber` scans positions `[1, PAGECOUNT)` in
increasing order and returns the first whose metadata has neither `ACTIVE`
nor `OPEN` set; it returns 0 when every position in the range has one of
them set. -/
theorem C5_getEmptyTableEntryNumber (s : KVATState) :
    (getEmptyTableEntryNumber s ≠ 0 →
      1 ≤ getEmptyTableEntryNumber s ∧ getEmptyTableEntryNumber s < PAGECOUNT ∧
      (s.entries (getEmptyTableEntryNumber s)).metadata &&& (MACTIVE ||| MOPEN) = 0 ∧
      ∀ m, 1 ≤ m → m < getEmptyTableEntryNumber s →
        (s.entries m).metadata &&& (MACTIVE ||| MOPEN) ≠ 0) ∧
    (getEmptyTableEntryNumber s = 0 → ∀ m, 1 ≤ m → m < PAGECOUNT →
      (s.entries m).metadata &&& (MACTIVE ||| MOPEN) ≠ 0) := by
  have h := findEmptyEntry_spec s (PAGECOUNT - 1) 1 (by norm_num)
  have hc : 1 + (PAGECOUNT - 1) = PAGECOUNT := rfl
  rw [hc] at h
  exact h

/-- Claim C9: a `KVATSaveValue` with `valueSize = 0` on an initialized engine
returns `insufficientSpace`, because `writeData` of size 0 returns first page
0 immediately and writes nothing (second conjunct: the zero-size write is a
complete no-op). -/
theorem C9_saveValue_size_zero (s : KVATState) (key value : List Nat)
    (h : s.didInit = true) :
    (KVATSaveValue s key value 0).1 = KVATException.insufficientSpace ∧
    ∀ (t : KVATState) (r : Nat) (m : Bool),
      writeData t value 0 r m = ⟨0, false, 0, [], t⟩ := by
  constructor
  · simp only [KVATSaveValue, h, Bool.not_true, Bool.false_eq_true, if_false]
    repeat' split
    all_goals rfl
  · intro t r m
    rfl

/-- Claim C10: after the initialization guard, `KVATRetrieveValue` first sets
`*retrievePointerRef` to NULL; it is overwritten with the fetched buffer only
on the success path, so any non-`none` result leaves it NULL. -/
theorem C10_retrieve_ptrOut (s : KVATState) (key : List Nat) (hasBuf : Bool)
    (bufSize : Nat) (h : s.didInit = true) :
    ((KVATRetrieveValue s key hasBuf bufSize).exc ≠ KVATException.none →
      (KVATRetrieveValue s key hasBuf bufSize).ptrOut = some Option.none) ∧
    ((KVATRetrieveValue s key hasBuf bufSize).exc = KVATException.none →
      (KVATRetrieveValue s key hasBuf bufSize).ptrOut =
        some (some (fetchData s (s.entries (lookupByKey s key false 1)).valuePage
          ((s.entries (lookupByKey s key false 1)).metadata &&& MVC_ISMULTIPLE ≠ 0)
          bufSize hasBuf).bytes)) := by
  simp only [KVATRetrieveValue, h, Bool.not_true, Bool.false_eq_true, if_false,
    readTableEntry]
  split
  · exact ⟨fun _ => rfl, fun hc => absurd hc (by decide)⟩
  · exact ⟨fun hc => absurd rfl hc, fun _ => rfl⟩

/-! ### Witnesses for the claims whose theorems carry hypotheses -/

set_option maxRecDepth 100000 in
/-- Witness for C4: concrete successful single-page write of 3 bytes. -/
theorem C4_witness :
    (writeData freshState [1, 2, 3] 3 0 false).remains =
      (if 3 % (if 3 ≤ PAGESIZE then PAGESIZE else PAGESIZE - 1) = 0 then 0
       else (if 3 ≤ PAGESIZE then PAGESIZE else PAGESIZE - 1) -
         3 % (if 3 ≤ PAGESIZE then PAGESIZE else PAGESIZE - 1)) ∧
    ((writeData freshState [1, 2, 3] 3 0 false).savedMultiple = true ↔ 3 > PAGESIZE) ∧
    (writeData freshState [1, 2, 3] 3 0 false).pagesUsed ≠ [] ∧
    (writeData freshState [1, 2, 3] 3 0 false).firstPage =
      ((writeData freshState [1, 2, 3] 3 0 false).pagesUsed).headD 0 :=
  C4_writeData_outputs freshState [1, 2, 3] 3 0 false (by norm_num) (by decide)

set_option maxRecDepth 100000 in
/-- Witness for C5: on the fresh table the first empty entry is position 1. -/
theorem C5_witness :
    getEmptyTableEntryNumber freshState ≠ 0 ∧
    (freshState.entries (getEmptyTableEntryNumber freshState)).metadata &&&
      (MACTIVE ||| MOPEN) = 0 :=
  ⟨by decide, ((C5_getEmptyTableEntryNumber freshState).1 (by decide)).2.2.1⟩

set_option maxRecDepth 100000 in
/-- Witness for C9: a zero-size save on the fresh engine. -/
theorem C9_witness :
    freshState.didInit = true ∧
    (KVATSaveValue freshState [97] [] 0).1 = KVATException.insufficientSpace :=
  ⟨rfl, (C9_saveValue_size_zero freshState [97] [] rfl).1⟩

set_option maxRecDepth 100000 in
/-- Witness for C10: retrieving a missing key on the fresh engine reports
`notFound` and leaves the out-pointer NULL. -/
theorem C10_witness :
    (KVATRetrieveValue freshState [97] false 0).exc ≠ KVATException.none ∧
    (KVATRetrieveValue freshState [97] false 0).ptrOut = some Option.none :=
  ⟨by decide, (C10_retrieve_ptrOut freshState [97] false 0 rfl).1 (by decide)⟩

/-! ## Frame lemmas: which state components each helper can touch -/

theorem markPageInRecord_entries (s : KVATState) (n : Nat) (u : Bool) :
    (markPageInRecord s n u).entries = s.entries := rfl

theorem markPageInRecord_pageMem (s : KVATState) (n : Nat) (u : Bool) :
    (markPageInRecord s n u).pageMem = s.pageMem := rfl

theorem markPageInRecord_didInit (s : KVATState) (n : Nat) (u : Bool) :
    (markPageInRecord s n u).didInit = s.didInit := rfl

theorem saveNextPageNumber_entries (s : KVATState) (n v : Nat) :
    (saveNextPageNumber s n v).entries = s.entries := rfl

theorem saveNextPageNumber_didInit (s : KVATState) (n v : Nat) :
    (saveNextPageNumber s n v).didInit = s.didInit := rfl

theorem saveNextPageNumber_pageRecord (s : KVATState) (n v : Nat) :
    (saveNextPageNumber s n v).pageRecord = s.pageRecord := rfl

theorem getEmptyPageNumber_entries (t : Bool) (s : KVATState) :
    ((getEmptyPageNumber t s).2).entries = s.entries := by
  simp only [getEmptyPageNumber]
  split <;> split <;> rfl

theorem getEmptyPageNumber_pageMem (t : Bool) (s : KVATState) :
    ((getEmptyPageNumber t s).2).pageMem = s.pageMem := by
  simp only [getEmptyPageNumber]
  split <;> split <;> rfl

theorem getEmptyPageNumber_didInit (t : Bool) (s : KVATState) :
    ((getEmptyPageNumber t s).2).didInit = s.didInit := by
  simp only [getEmptyPageNumber]
  split <;> split <;> rfl

theorem followChainAux_entries (a m : Bool) :
    ∀ (fuel : Nat) (s : KVATState) (cur : Nat),
      (followChainAux s cur a m fuel).entries = s.entries := by
  intro fuel
  induction fuel with
  | zero => intro s cur; rfl
  | succ f ih =>
    intro s cur
    by_cases h : cur = 0
    · simp [followChainAux, h]
    · simp only [followChainAux, h, if_false]
      rw [ih]
      rfl

theorem followChainAux_pageMem (a m : Bool) :
    ∀ (fuel : Nat) (s : KVATState) (cur : Nat),
      (followChainAux s cur a m fuel).pageMem = s.pageMem := by
  intro fuel
  induction fuel with
  | zero => intro s cur; rfl
  | succ f ih =>
    intro s cur
    by_cases h : cur = 0
    · simp [followChainAux, h]
    · simp only [followChainAux, h, if_false]
      rw [ih]
      rfl

theorem followChainAux_didInit (a m : Bool) :
    ∀ (fuel : Nat) (s : KVATState) (cur : Nat),
      (followChainAux s cur a m fuel).didInit = s.didInit := by
  intro fuel
  induction fuel with
  | zero => intro s cur; rfl
  | succ f ih =>
    intro s cur
    by_cases h : cur = 0
    · simp [followChainAux, h]
    · simp only [followChainAux, h, if_false]
      rw [ih]
      rfl

theorem followPageChain_entries (s : KVATState) (c : Nat) (a m : Bool) :
    (followPageChainAndSetPageRecord s c a m).entries = s.entries := by
  unfold followPageChainAndSetPageRecord
  split
  · rfl
  · exact followChainAux_entries a m PAGECOUNT s c

theorem followPageChain_pageMem (s : KVATState) (c : Nat) (a m : Bool) :
    (followPageChainAndSetPageRecord s c a m).pageMem = s.pageMem := by
  unfold followPageChainAndSetPageRecord
  split
  · rfl
  · exact followChainAux_pageMem a m PAGECOUNT s c

theorem followPageChain_didInit (s : KVATState) (c : Nat) (a m : Bool) :
    (followPageChainAndSetPageRecord s c a m).didInit = s.didInit := by
  unfold followPageChainAndSetPageRecord
  split
  · rfl
  · exact followChainAux_didInit a m PAGECOUNT s c

theorem foldl_mark_entries (pagesUsed : List Nat) :
    ∀ (l : List Nat) (st : KVATState),
      (l.foldl (fun acc idx => markPageInRecord acc (pagesUsed.getD idx 0) false) st).entries
        = st.entries := by
  intro l
  induction l with
  | nil => intro st; rfl
  | cons x xs ih =>
    intro st
    simpa using ih (markPageInRecord st (pagesUsed.getD x 0) false)

theorem foldl_mark_pageMem (pagesUsed : List Nat) :
    ∀ (l : List Nat) (st : KVATState),
      (l.foldl (fun acc idx => markPageInRecord acc (pagesUsed.getD idx 0) false) st).pageMem
        = st.pageMem := by
  intro l
  induction l with
  | nil => intro st; rfl
  | cons x xs ih =>
    intro st
    simpa using ih (markPageInRecord st (pagesUsed.getD x 0) false)

theorem foldl_mark_didInit (pagesUsed : List Nat) :
    ∀ (l : List Nat) (st : KVATState),
      (l.foldl (fun acc idx => markPageInRecord acc (pagesUsed.getD idx 0) false) st).didInit
        = st.didInit := by
  intro l
  induction l with
  | nil => intro st; rfl
  | cons x xs ih =>
    intro st
    simpa using ih (markPageInRecord st (pagesUsed.getD x 0) false)

theorem unwindMarks_entries (st : KVATState) (pagesUsed : List Nat) (dry i : Nat) :
    (unwindMarks st pagesUsed dry i).entries = st.entries :=
  foldl_mark_entries pagesUsed (List.range' dry (i - dry)) st

theorem unwindMarks_didInit (st : KVATState) (pagesUsed : List Nat) (dry i : Nat) :
    (unwindMarks st pagesUsed dry i).didInit = st.didInit :=
  foldl_mark_didInit pagesUsed (List.range' dry (i - dry)) st

theorem writeDataLoop_entries (data : List Nat) (rm im : Bool) (pds pn : Nat) :
    ∀ (fuel i : Nat) (L : WDLoop),
      (writeDataLoop data rm im pds pn i L fuel).2.st.entries = L.st.entries := by
  intro fuel
  induction fuel with
  | zero => intro i L; rfl
  | succ f ih =>
    intro i L
    simp only [writeDataLoop]
    repeat' split
    all_goals
      first
        | (simp [saveNextPageNumber_entries, unwindMarks_entries]; done)
        | (rw [ih]; simp [getEmptyPageNumber_entries]; done)
        | (rw [ih])

theorem writeDataLoop_didInit (data : List Nat) (rm im : Bool) (pds pn : Nat) :
    ∀ (fuel i : Nat) (L : WDLoop),
      (writeDataLoop data rm im pds pn i L fuel).2.st.didInit = L.st.didInit := by
  intro fuel
  induction fuel with
  | zero => intro i L; rfl
  | succ f ih =>
    intro i L
    simp only [writeDataLoop]
    repeat' split
    all_goals
      first
        | (simp [saveNextPageNumber_didInit, unwindMarks_didInit]; done)
        | (rw [ih]; simp [getEmptyPageNumber_didInit]; done)
        | (rw [ih])

theorem writeData_entries (s : KVATState) (data : List Nat) (size rcs : Nat) (rm : Bool) :
    (writeData s data size rcs rm).state.entries = s.entries := by
  simp only [writeData]
  repeat' split
  all_goals
    simp [followPageChain_entries, writeDataLoop_entries, getEmptyPageNumber_entries]

theorem writeData_didInit (s : KVATState) (data : List Nat) (size rcs : Nat) (rm : Bool) :
    (writeData s data size rcs rm).state.didInit = s.didInit := by
  simp only [writeData]
  repeat' split
  all_goals
    simp [followPageChain_didInit, writeDataLoop_didInit, getEmptyPageNumber_didInit]

/-! ## Contiguous occupancy records

All page allocations in the scenarios proved below happen on records whose
used pages form an initial segment `[0, m)`; `contigByte m` is byte `j` of
such a record. -/

/-- Byte `j` of the record in which exactly pages `[0, m)` are used. -/
def contigByte (m j : Nat) : Nat :=
  if 8 * j + 8 ≤ m then 255
  else if m ≤ 8 * j then 0
  else 2 ^ (m - 8 * j) - 1

theorem lowBitPos_pow (r : Nat) (h : r < 8) : lowBitPos (2 ^ r - 1) = r := by
  interval_cases r <;> decide

theorem pow_or_shift (r : Nat) (h : r < 8) :
    (2 ^ r - 1) ||| (1 <<< r) = 2 ^ (r + 1) - 1 := by
  interval_cases r <;> decide

theorem pow_sub_one_lt_255 (r : Nat) (h : r < 8) : 2 ^ r - 1 < 255 := by
  interval_cases r <;> decide

theorem contigByte_full (m j : Nat) (h : 8 * j + 8 ≤ m) : contigByte m j = 255 := by
  simp [contigByte, h]

theorem contigByte_at_div (m : Nat) : contigByte m (m / 8) = 2 ^ (m % 8) - 1 := by
  have h1 : ¬ (8 * (m / 8) + 8 ≤ m) := by omega
  by_cases h2 : m ≤ 8 * (m / 8)
  · have : m % 8 = 0 := by omega
    simp [contigByte, h1, h2, this]
  · have : m - 8 * (m / 8) = m % 8 := by omega
    simp [contigByte, h1, h2, this]

theorem contigByte_not_full (m : Nat) : contigByte m (m / 8) ≠ 255 := by
  rw [contigByte_at_div]
  exact Nat.ne_of_lt (pow_sub_one_lt_255 _ (by omega))

theorem findNonFullSeg_first (r : Nat → Nat) (k : Nat) :
    ∀ (fuel seg : Nat), seg ≤ k → k < seg + fuel → r k ≠ 255 →
      (∀ j, seg ≤ j → j < k → r j = 255) →
      findNonFullSeg r seg fuel = k := by
  intro fuel
  induction fuel with
  | zero => intro seg h1 h2; omega
  | succ f ih =>
    intro seg h1 h2 hk hall
    rcases Nat.eq_or_lt_of_le h1 with rfl | hlt
    · simp [findNonFullSeg, hk]
    · have hseg : r seg = 255 := hall seg (le_refl _) hlt
      simp only [findNonFullSeg, hseg, ne_eq, not_true_eq_false, if_false]
      exact ih (seg + 1) (by omega) (by omega) hk (fun j hj hj' => hall j (by omega) hj')

/-- `getEmptyPageNumber` on the record with pages `[0, m)` used returns page
`m` and, when taking, marks it: the record becomes the one for `[0, m+1)`. -/
theorem getEmpty_contig (s : KVATState) (m : Nat) (tk : Bool)
    (hrec : s.pageRecord = fun j => contigByte m j) (h1 : 1 ≤ m) (h2 : m ≤ 135) :
    getEmptyPageNumber tk s =
      (m, if tk then { s with pageRecord := fun j => contigByte (m + 1) j } else s) := by
  have hseg : findNonFullSeg s.pageRecord 0 pageRecordSize = m / 8 := by
    apply findNonFullSeg_first
    · omega
    · show m / 8 < 0 + pageRecordSize
      have : pageRecordSize = 17 := rfl
      omega
    · rw [hrec]; exact contigByte_not_full m
    · intro j _ hj
      rw [hrec]
      exact contigByte_full m j (by omega)
  have hlow : lowBitPos (s.pageRecord (m / 8)) = m % 8 := by
    rw [hrec]
    show lowBitPos (contigByte m (m / 8)) = m % 8
    rw [contigByte_at_div]
    exact lowBitPos_pow _ (by omega)
  have hseglt : m / 8 < pageRecordSize := by
    have : pageRecordSize = 17 := rfl
    omega
  have hempty : (findNonFullSeg s.pageRecord 0 pageRecordSize * 8 +
      (if findNonFullSeg s.pageRecord 0 pageRecordSize < pageRecordSize then
        lowBitPos (s.pageRecord (findNonFullSeg s.pageRecord 0 pageRecordSize)) else 0)) % 256
      = m := by
    rw [hseg, if_pos hseglt, hlow]
    have : m / 8 * 8 + m % 8 = m := by omega
    rw [this]
    omega
  have hmarkeq : markPageInRecord s m true =
      { s with pageRecord := updf s.pageRecord (m / 8)
                  (s.pageRecord (m / 8) ||| (1 <<< (m % 8))) } := by
    simp [markPageInRecord]
  have hmark : markPageInRecord s m true =
      { s with pageRecord := fun j => contigByte (m + 1) j } := by
    rw [hmarkeq]
    congr 1
    funext j
    by_cases hj : j = m / 8
    · subst hj
      rw [updf_same, hrec]
      show contigByte m (m / 8) ||| (1 <<< (m % 8)) = contigByte (m + 1) (m / 8)
      rw [contigByte_at_div, pow_or_shift _ (by omega)]
      by_cases h7 : m % 8 = 7
      · rw [contigByte_full (m + 1) (m / 8) (by omega), h7]
        decide
      · have hne1 : ¬ (8 * (m / 8) + 8 ≤ m + 1) := by omega
        have hne2 : ¬ (m + 1 ≤ 8 * (m / 8)) := by omega
        simp only [contigByte, hne1, hne2, if_false]
        have he : m + 1 - 8 * (m / 8) = m % 8 + 1 := by omega
        rw [he]
    · rw [updf_other _ _ _ _ hj, hrec]
      show contigByte m j = contigByte (m + 1) j
      rcases Nat.lt_or_ge j (m / 8) with hlt | hge
      · rw [contigByte_full m j (by omega), contigByte_full (m + 1) j (by omega)]
      · have hgt : m / 8 < j := by omega
        have e1 : contigByte m j = 0 := by
          simp only [contigByte, if_neg (by omega : ¬ (8 * j + 8 ≤ m)),
            if_pos (by omega : m ≤ 8 * j)]
        have e2 : contigByte (m + 1) j = 0 := by
          simp only [contigByte, if_neg (by omega : ¬ (8 * j + 8 ≤ m + 1)),
            if_pos (by omega : m + 1 ≤ 8 * j)]
        rw [e1, e2]
  simp only [getEmptyPageNumber, hempty]
  have hne : ¬ (m = 0) := by omega
  cases tk with
  | false => simp
  | true => simp [hne, hmark]

/-- Taking variant of `getEmpty_contig` with the branch resolved. -/
theorem getEmpty_contig_take (s : KVATState) (m : Nat)
    (hrec : s.pageRecord = fun j => contigByte m j) (h1 : 1 ≤ m) (h2 : m ≤ 135) :
    getEmptyPageNumber true s =
      (m, { s with pageRecord := fun j => contigByte (m + 1) j }) := by
  rw [getEmpty_contig s m true hrec h1 h2]
  rfl

/-! ## Derived shapes of a chain write (specification shorthands) -/

/-- Payload bytes per page for a write of `size` bytes:
`PAGESIZE` single-page, `PAGESIZE - 1` multi-page. -/
def payloadFor (size : Nat) : Nat := if size ≤ PAGESIZE then PAGESIZE else PAGESIZE - 1

/-- Number of pages `writeData` needs for `size` bytes (the untruncated
ceiling; equal to the code's byte-typed `pagesNeeded` whenever it fits). -/
def pagesFor (size : Nat) : Nat :=
  if size ≤ PAGESIZE then 1
  else size / (PAGESIZE - 1) + (if size % (PAGESIZE - 1) = 0 then 0 else 1)

/-- The `remains` value `writeData` reports for a write of `size` bytes. -/
def remainsFor (size : Nat) : Nat :=
  if size % payloadFor size = 0 then 0 else payloadFor size - size % payloadFor size

theorem pagesFor_pos (size : Nat) : 1 ≤ pagesFor size := by
  have h12 : PAGESIZE = 12 := rfl
  unfold pagesFor
  rw [h12]
  split
  · omega
  · split <;> omega

/-- One writeDataLoop run with no reuse chain, on a contiguous record, writes
the pages `base+i, …, base+n-1` as one chain carrying consecutive slices of
`data`, taking each page from the record in order. -/
theorem writeDataLoop_fresh (data : List Nat) (rm isMulti : Bool) (pds n base : Nat)
    (hbase : 1 ≤ base) (hn : base + n ≤ 128) :
    ∀ (fuel i : Nat) (L : WDLoop), i + fuel = n → 0 < fuel →
      L.reuseNext = 0 → L.nextPageN = base + i →
      L.st.pageRecord = (fun j => contigByte (base + i + 1) j) →
      writeDataLoop data rm isMulti pds n i L fuel =
        (false, ⟨0, L.dryI, 0, L.pagesUsed ++ List.range' (base + i) fuel,
          ⟨L.st.didInit, L.st.entries,
           fun q => if base + i ≤ q ∧ q < base + n then
               (if isMulti then [if q + 1 = base + n then 0 else q + 1] else []) ++
                 byteSlice data (pds * (q - base)) pds
             else L.st.pageMem q,
           fun j => contigByte (base + n) j⟩⟩) := by
  intro fuel
  induction fuel with
  | zero => intro i L h1 h2; omega
  | succ f ih =>
    intro i L h1 _ hrn hnp hrec
    obtain ⟨rn, dry, np0, pu, st⟩ := L
    obtain ⟨di, en, pm, pr⟩ := st
    simp only at hrn hnp hrec
    subst hrn hnp hrec
    simp only [writeDataLoop, ne_eq, not_true_eq_false, decide_False,
      Bool.false_and, if_neg (by omega : ¬ (base + i = 0)),
      Bool.false_eq_true, if_false]
    by_cases hlast : i + 1 < n
    · rw [if_pos hlast]
      rw [getEmpty_contig_take _ (base + i + 1) rfl (by omega) (by omega)]
      have hf : 0 < f := by omega
      rw [ih (i + 1) _ (by omega) hf rfl
        (by show base + i + 1 = base + (i + 1); omega)
        (by have he : base + (i + 1) + 1 = base + i + 1 + 1 := by omega
            rw [he])]
      simp only [Prod.mk.injEq, WDLoop.mk.injEq, KVATState.mk.injEq, true_and, and_true]
      refine ⟨?_, ?_⟩
      · have he : base + (i + 1) = base + i + 1 := by omega
        rw [List.range'_succ, List.append_assoc, he]
        rfl
      · funext q
        by_cases hq : base + (i + 1) ≤ q ∧ q < base + n
        · rw [if_pos hq, if_pos (by omega : base + i ≤ q ∧ q < base + n)]
        · rw [if_neg hq]
          by_cases hq2 : q = base + i
          · subst hq2
            rw [if_pos (by omega : base + i ≤ base + i ∧ base + i < base + n)]
            show updf _ _ _ _ = _
            rw [updf_same]
            have hnm : ¬ (base + i + 1 = base + n) := by omega
            simp only [if_neg hnm]
            rw [show base + i - base = i from by omega]
          · rw [if_neg (by omega : ¬ (base + i ≤ q ∧ q < base + n))]
            show updf _ _ _ _ = _
            rw [updf_other _ _ _ _ hq2]
    · have hfi : f = 0 := by omega
      have hni : i + 1 = n := by omega
      subst hfi
      rw [if_neg hlast]
      simp only [writeDataLoop, Prod.mk.injEq, WDLoop.mk.injEq, KVATState.mk.injEq,
        true_and, and_true]
      refine ⟨rfl, ?_, ?_⟩
      · funext q
        by_cases hq2 : q = base + i
        · subst hq2
          rw [if_pos (by omega : base + i ≤ base + i ∧ base + i < base + n)]
          show updf _ _ _ _ = _
          rw [updf_same]
          have hnm : base + i + 1 = base + n := by omega
          simp only [if_pos hnm]
          rw [show base + i - base = i from by omega]
        · rw [if_neg (by omega : ¬ (base + i ≤ q ∧ q < base + n))]
          show updf _ _ _ _ = _
          rw [updf_other _ _ _ _ hq2]
      · funext j
        have he : base + i + 1 = base + n := by omega
        rw [he]

theorem headD_range' (m n : Nat) (h : 0 < n) : (List.range' m n).headD 0 = m := by
  cases n with
  | zero => omega
  | succ k => rw [List.range'_succ]; rfl

/-- Page `i` of the chain a fresh `writeData` of `data` (`size` bytes)
starting at page `m` produces. -/
def freshChainPage (data : List Nat) (size m i : Nat) : List Nat :=
  (if size ≤ PAGESIZE then [] else [if i + 1 = pagesFor size then 0 else m + i + 1]) ++
    byteSlice data (payloadFor size * i) (payloadFor size)

/-- Page memory after a fresh chain write of `data` at pages
`[m, m + pagesFor size)` over `orig`. -/
def freshWrites (orig : Nat → List Nat) (data : List Nat) (size m : Nat) : Nat → List Nat :=
  fun q => if m ≤ q ∧ q < m + pagesFor size then freshChainPage data size m (q - m)
    else orig q

/-- A fresh (no reuse chain) successful `writeData` on a contiguous record:
allocates exactly pages `[m, m + pagesFor size)`, links them as one chain
holding the consecutive slices of `data`, and leaves the record contiguous. -/
theorem writeData_fresh (s : KVATState) (data : List Nat) (size m : Nat)
    (hrec : s.pageRecord = fun j => contigByte m j) (hm : 1 ≤ m) (hsz : 0 < size)
    (hfit : m + pagesFor size ≤ 128) :
    writeData s data size 0 false =
      ⟨m, decide (size > PAGESIZE), remainsFor size, List.range' m (pagesFor size),
        ⟨s.didInit, s.entries, freshWrites s.pageMem data size m,
         fun j => contigByte (m + pagesFor size) j⟩⟩ := by
  have h12 : PAGESIZE = 12 := rfl
  have hns : ¬ (size = 0) := by omega
  obtain ⟨di, en, pm, pr⟩ := s
  simp only at hrec
  subst hrec
  by_cases hsm : size ≤ PAGESIZE
  · have hn1 : pagesFor size = 1 := by simp [pagesFor, hsm]
    have hdec : (decide (size > PAGESIZE)) = false := by
      simp only [decide_eq_false_iff_not]; omega
    simp only [writeData, if_neg hns, hdec, Bool.false_eq_true, if_false, Bool.false_and,
      if_neg (by decide : ¬ ((1 : Nat) > PAGECOUNT)), ne_eq,
      not_true_eq_false, decide_False, Nat.sub_zero]
    rw [getEmpty_contig_take _ m rfl hm (by omega)]
    rw [writeDataLoop_fresh data false false PAGESIZE 1 m hm (by omega) 1 0 _ rfl (by omega)
      rfl (by show m = m + 0; omega)
      (by show (fun j => contigByte (m + 1) j) = fun j => contigByte (m + 0 + 1) j
          rw [Nat.add_zero])]
    simp only [List.nil_append, ne_eq, not_true_eq_false, decide_False, Bool.false_eq_true,
      if_false, List.headD]
    simp only [WriteResult.mk.injEq, KVATState.mk.injEq, true_and, and_true]
    refine ⟨by rw [List.range'_one]; show m + 0 = m; omega, ?_, ?_, ?_, ?_⟩
    · by_cases hz : size % PAGESIZE = 0 <;> simp [remainsFor, payloadFor, hsm, hz]
    · rw [hn1, List.range'_one]
      simp
    · funext q
      rw [freshWrites, hn1]
      by_cases hq : m ≤ q ∧ q < m + 1
      · rw [if_pos (by omega : m + 0 ≤ q ∧ q < m + 1), if_pos hq]
        rw [freshChainPage, if_pos hsm, payloadFor, if_pos hsm, List.nil_append]
      · rw [if_neg (by omega : ¬ (m + 0 ≤ q ∧ q < m + 1)), if_neg hq]
    · rw [hn1]
  · have hgt : PAGESIZE < size := by omega
    have hdec : (decide (size > PAGESIZE)) = true := by
      simp only [decide_eq_true_eq]; omega
    have hnval : pagesFor size = size / (PAGESIZE - 1) +
        (if size % (PAGESIZE - 1) = 0 then 0 else 1) := by
      rw [pagesFor, if_neg hsm]
    have hnbig : pagesFor size ≤ 127 := by omega
    have hdivlt : size / (PAGESIZE - 1) < 256 := by
      rw [h12] at hnval ⊢
      rcases Nat.eq_zero_or_pos (size % 11) with hz | hz
      · rw [hnval, if_pos (by omega)] at hnbig; omega
      · rw [hnval, if_neg (by omega)] at hnbig; omega
    have hmod : size / (PAGESIZE - 1) % 256 = size / (PAGESIZE - 1) :=
      Nat.mod_eq_of_lt hdivlt
    have hp2 : (if (decide ¬ size % (PAGESIZE - 1) = 0) = true then
        (size / (PAGESIZE - 1) % 256 + 1) % 256 else size / (PAGESIZE - 1) % 256)
        = pagesFor size := by
      rw [hmod]
      by_cases hz : size % (PAGESIZE - 1) = 0
      · rw [if_neg (by simp [hz]), hnval, if_pos hz]
        omega
      · rw [if_pos (by simp [hz]), hnval, if_neg hz, Nat.mod_eq_of_lt (by omega)]
    simp only [writeData, if_neg hns, hdec, if_true, Bool.true_and, ne_eq,
      not_true_eq_false, decide_False, Bool.false_eq_true, if_false]
    rw [hp2]
    rw [if_neg (by have hc : PAGECOUNT = 128 := rfl; omega : ¬ (pagesFor size > PAGECOUNT))]
    rw [getEmpty_contig_take _ m rfl hm (by omega)]
    rw [writeDataLoop_fresh data false true (PAGESIZE - 1) (pagesFor size) m hm (by omega)
      (pagesFor size) 0 _ (by omega) (pagesFor_pos size) rfl (by show m = m + 0; omega)
      (by show (fun j => contigByte (m + 1) j) = fun j => contigByte (m + 0 + 1) j
          rw [Nat.add_zero])]
    simp only [List.nil_append, not_true, if_false, if_true, WriteResult.mk.injEq,
      KVATState.mk.injEq, true_and, and_true]
    refine ⟨?_, ?_, ?_, ?_⟩
    · rw [headD_range' (m + 0) _ (pagesFor_pos size)]
      omega
    · by_cases hz : size % (PAGESIZE - 1) = 0 <;> simp [remainsFor, payloadFor, hsm, hz]
    · rw [Nat.add_zero]
    · funext q
      rw [freshWrites]
      by_cases hq : m ≤ q ∧ q < m + pagesFor size
      · rw [if_pos (by omega : m + 0 ≤ q ∧ q < m + pagesFor size), if_pos hq]
        rw [freshChainPage, if_neg hsm, payloadFor, if_neg hsm]
        by_cases hL : q + 1 = m + pagesFor size
        · rw [if_pos hL, if_pos (by omega : q - m + 1 = pagesFor size)]
        · rw [if_neg hL, if_neg (by omega : ¬ (q - m + 1 = pagesFor size)),
            show m + (q - m) + 1 = q + 1 from by omega]
      · rw [if_neg (by omega : ¬ (m + 0 ≤ q ∧ q < m + pagesFor size)), if_neg hq]

/-! ## Byte-slice and fetch lemmas -/

theorem byteSlice_length (d : List Nat) (off len : Nat) :
    (byteSlice d off len).length = len := by
  simp [byteSlice]

theorem byteSlice_zero (d : List Nat) (off : Nat) : byteSlice d off 0 = [] := rfl

theorem byteSlice_append (d : List Nat) (a x y : Nat) :
    byteSlice d a x ++ byteSlice d (a + x) y = byteSlice d a (x + y) := by
  simp only [byteSlice, List.range_add, List.map_append, List.map_map]
  congr 1
  apply List.map_congr_left
  intro j _
  show d.getD (a + x + j) 0 = d.getD (a + (x + j)) 0
  rw [Nat.add_assoc]

theorem byteSlice_take (d : List Nat) (off len t : Nat) (h : t ≤ len) :
    (byteSlice d off len).take t = byteSlice d off t := by
  simp only [byteSlice, ← List.map_take, List.take_range]
  rw [Nat.min_eq_left h]

theorem byteSlice_take_self (d : List Nat) (len : Nat) (h : d.length ≤ len) :
    (byteSlice d 0 len).take d.length = d := by
  rw [byteSlice_take d 0 len d.length h]
  apply List.ext_getElem
  · simp [byteSlice]
  · intro i h1 h2
    simp only [byteSlice, List.getElem_map, List.getElem_range, Nat.zero_add]
    exact List.getD_eq_getElem d 0 h2

theorem take_byteSlice_full (d : List Nat) (off len : Nat) :
    (byteSlice d off len).take len = byteSlice d off len := by
  rw [byteSlice_take d off len len (le_refl _)]

/-- Chain length count over a fresh multi-page chain. -/
theorem chainCountAux_fresh (s : KVATState) (data : List Nat) (size m : Nat)
    (hmulti : ¬ size ≤ PAGESIZE)
    (hch : ∀ i, i < pagesFor size → s.pageMem (m + i) = freshChainPage data size m i)
    (hm : 1 ≤ m) :
    ∀ (k : Nat), ∀ (i c fuel : Nat), i < pagesFor size → k = pagesFor size - 1 - i →
      k ≤ fuel → chainCountAux s (m + i) fuel c = c + k := by
  intro k
  induction k with
  | zero =>
    intro i c fuel hi hk _
    have hnext : readNextPageNumber s (m + i) = 0 := by
      rw [readNextPageNumber, hch i hi, freshChainPage, if_neg hmulti]
      show (if i + 1 = pagesFor size then 0 else m + i + 1) = 0
      rw [if_pos (by omega)]
    cases fuel with
    | zero => rfl
    | succ f => simp [chainCountAux, hnext]
  | succ k ih =>
    intro i c fuel hi hk hf
    have hnext : readNextPageNumber s (m + i) = m + i + 1 := by
      rw [readNextPageNumber, hch i hi, freshChainPage, if_neg hmulti]
      show (if i + 1 = pagesFor size then 0 else m + i + 1) = m + i + 1
      rw [if_neg (by omega)]
    cases fuel with
    | zero => omega
    | succ f =>
      simp only [chainCountAux, hnext, if_neg (by omega : ¬ (m + i + 1 = 0))]
      have := ih (i + 1) (c + 1) f (by omega) (by omega) (by omega)
      rw [show m + (i + 1) = m + i + 1 from by omega] at this
      rw [this]
      omega

/-- Assembly over a fresh multi-page chain: concatenation of the data
slices. -/
theorem fetchAux_fresh_multi (s : KVATState) (data : List Nat) (size m : Nat)
    (hmulti : ¬ size ≤ PAGESIZE)
    (hch : ∀ i, i < pagesFor size → s.pageMem (m + i) = freshChainPage data size m i) :
    ∀ (k i : Nat), i + k = pagesFor size →
      fetchAux s (m + i) 1 (PAGESIZE - 1) 0 k =
        byteSlice data ((PAGESIZE - 1) * i) ((PAGESIZE - 1) * k) := by
  intro k
  induction k with
  | zero =>
    intro i _
    rw [Nat.mul_zero, byteSlice_zero]
    rfl
  | succ k ih =>
    intro i hik
    have hpage : s.pageMem (m + i) = freshChainPage data size m i := hch i (by omega)
    simp only [fetchAux, hpage, freshChainPage, if_neg hmulti, payloadFor]
    have hdrop : (([if i + 1 = pagesFor size then 0 else m + i + 1] ++
        byteSlice data ((PAGESIZE - 1) * i) (PAGESIZE - 1)).drop 1) =
        byteSlice data ((PAGESIZE - 1) * i) (PAGESIZE - 1) := rfl
    rw [hdrop]
    have hamt : (if (decide ¬ (0 : Nat) = 0 && decide (k = 0)) = true then 0
        else PAGESIZE - 1) = PAGESIZE - 1 := by simp
    rw [hamt, take_byteSlice_full]
    have hheadD : (([if i + 1 = pagesFor size then 0 else m + i + 1] ++
        byteSlice data ((PAGESIZE - 1) * i) (PAGESIZE - 1)).headD 0) =
        (if i + 1 = pagesFor size then 0 else m + i + 1) := rfl
    rw [hheadD]
    cases k with
    | zero =>
      show byteSlice data ((PAGESIZE - 1) * i) (PAGESIZE - 1) ++ fetchAux s _ 1 (PAGESIZE - 1) 0 0
        = byteSlice data ((PAGESIZE - 1) * i) ((PAGESIZE - 1) * 1)
      rw [Nat.mul_one]
      show byteSlice data ((PAGESIZE - 1) * i) (PAGESIZE - 1) ++ [] = _
      rw [List.append_nil]
    | succ kk =>
      rw [if_neg (by omega : ¬ (i + 1 = pagesFor size))]
      have := ih (i + 1) (by omega)
      rw [show m + (i + 1) = m + i + 1 from by omega] at this
      rw [this]
      have hsplit : (PAGESIZE - 1) * i + (PAGESIZE - 1) = (PAGESIZE - 1) * (i + 1) := by
        rw [Nat.mul_succ]
      rw [← hsplit] at *
      rw [show (PAGESIZE - 1) * (kk + 1 + 1) = (PAGESIZE - 1) + (PAGESIZE - 1) * (kk + 1)
        from by rw [Nat.mul_succ, Nat.mul_succ]; omega]
      rw [← byteSlice_append data ((PAGESIZE - 1) * i) (PAGESIZE - 1)
        ((PAGESIZE - 1) * (kk + 1))]

/-- `fetchData` over a fresh chain (no forcing) returns the written bytes
(zero-extended to whole pages) plus the NUL terminator, and reports the
chain payload capacity. -/
theorem fetchData_fresh (s : KVATState) (data : List Nat) (size m psz : Nat) (mb : Bool)
    (hch : ∀ i, i < pagesFor size → s.pageMem (m + i) = freshChainPage data size m i)
    (hmb : mb = decide (size > PAGESIZE)) (hm : 1 ≤ m) (hsz : 0 < size)
    (hfit : m + pagesFor size ≤ 128) :
    fetchData s m mb psz false =
      ⟨byteSlice data 0 (payloadFor size * pagesFor size) ++ [0],
        payloadFor size * pagesFor size⟩ := by
  by_cases hsm : size ≤ PAGESIZE
  · have hmb0 : mb = false := by
      rw [hmb]
      simp only [decide_eq_false_iff_not]
      omega
    subst hmb0
    have h1 : pagesFor size = 1 := by simp [pagesFor, hsm]
    simp only [fetchData, Bool.false_eq_true, if_false, Bool.false_and, Nat.sub_zero]
    have hpage : s.pageMem (m + 0) = freshChainPage data size m 0 := by
      apply hch; omega
    rw [show m + 0 = m from rfl] at hpage
    simp only [fetchAux, hpage, freshChainPage, if_pos hsm, List.nil_append,
      payloadFor, h1]
    simp [take_byteSlice_full]
  · have hmb1 : mb = true := by
      rw [hmb]
      simp only [decide_eq_true_eq]
      omega
    subst hmb1
    have hcnt : chainCountAux s m (PAGECOUNT - 1) 1 = pagesFor size := by
      have hn1 : 1 ≤ pagesFor size := pagesFor_pos size
      have := chainCountAux_fresh s data size m hsm hch hm (pagesFor size - 1)
        0 1 (PAGECOUNT - 1) (by omega) (by omega)
        (by have hc : PAGECOUNT = 128 := rfl; omega)
      rw [show m + 0 = m from rfl] at this
      rw [this]
      omega
    simp only [fetchData, if_true, Bool.false_and, Bool.false_eq_true, if_false, hcnt]
    have := fetchAux_fresh_multi s data size m hsm hch (pagesFor size) 0 (by omega)
    rw [show m + 0 = m from rfl, Nat.mul_zero] at this
    rw [this]
    rw [show payloadFor size = PAGESIZE - 1 from by rw [payloadFor, if_neg hsm]]
    rw [Nat.mul_comm (pagesFor size) (PAGESIZE - 1)]

/-! ## C-string lemmas -/

theorem cstrlen_of_nonzero (k : List Nat) (hk : ∀ c ∈ k, c ≠ 0) :
    cstrlen k = k.length := by
  induction k with
  | nil => rfl
  | cons c cs ih =>
    have hc : c ≠ 0 := hk c (by simp)
    simp only [cstrlen, if_neg hc, List.length_cons]
    rw [ih (fun x hx => hk x (by simp [hx]))]

theorem cstrlen_append_zero (k t : List Nat) (hk : ∀ c ∈ k, c ≠ 0) :
    cstrlen (k ++ 0 :: t) = k.length := by
  induction k with
  | nil => simp [cstrlen]
  | cons c cs ih =>
    have hc : c ≠ 0 := hk c (by simp)
    simp only [List.cons_append, cstrlen, if_neg hc, List.length_cons]
    have := ih (fun x hx => hk x (by simp [hx]))
    show cstrlen (cs ++ 0 :: t) + 1 = cs.length + 1
    omega

theorem cstrncmpEq_prefix (t : List Nat) :
    ∀ (k : List Nat) (n : Nat), n ≤ k.length → cstrncmpEq k (k ++ t) n = true := by
  intro k
  induction k with
  | nil =>
    intro n hn
    have h0 : n = 0 := by simpa using hn
    subst h0
    rfl
  | cons c cs ih =>
    intro n hn
    cases n with
    | zero => rfl
    | succ nn =>
      simp only [cstrncmpEq, List.cons_append, List.headD, List.tail]
      by_cases hc : c = 0
      · simp [hc]
      · rw [if_pos trivial, if_neg hc]
        exact ih nn (by simpa using hn)

theorem key_match_unique (t : List Nat) :
    ∀ (k2 k1 : List Nat), (∀ c ∈ k2, c ≠ 0) → k2.length = k1.length →
      cstrncmpEq k2 (k1 ++ 0 :: t) k2.length = true → k2 = k1 := by
  intro k2
  induction k2 with
  | nil =>
    intro k1 _ hlen _
    cases k1 with
    | nil => rfl
    | cons d ds => simp at hlen
  | cons c cs ih =>
    intro k1 h2 hlen hcmp
    cases k1 with
    | nil => simp at hlen
    | cons d ds =>
      have hc : c ≠ 0 := h2 c (by simp)
      simp only [List.length_cons, cstrncmpEq, List.cons_append, List.headD,
        List.tail] at hcmp
      by_cases hcd : c = d
      · subst hcd
        rw [if_pos (rfl : c = c), if_neg hc] at hcmp
        have := ih ds (fun x hx => h2 x (by simp [hx])) (by simpa using hlen) hcmp
        rw [this]
      · rw [if_neg hcd] at hcmp
        exact absurd hcmp (by simp)

/-! ## Byte buffer shape of a stored key -/

theorem byteSlice_eq_append (d : List Nat) (L : Nat) (h : d.length ≤ L) :
    byteSlice d 0 L = d ++ List.replicate (L - d.length) 0 := by
  apply List.ext_getElem
  · simp [byteSlice_length]
    omega
  · intro i h1 h2
    rw [byteSlice_length] at h1
    simp only [byteSlice, List.getElem_map, List.getElem_range, Nat.zero_add]
    by_cases hi : i < d.length
    · rw [List.getElem_append_left hi, List.getD_eq_getElem d 0 hi]
    · rw [List.getElem_append_right (by omega)]
      simp only [List.getElem_replicate]
      rw [List.getD_eq_default]
      omega

theorem storedKey_form (k : List Nat) (L : Nat) (h : k.length + 1 ≤ L) :
    byteSlice k 0 L ++ [0] = k ++ 0 :: (List.replicate (L - k.length - 1) 0 ++ [0]) := by
  rw [byteSlice_eq_append k L (by omega)]
  rw [show L - k.length = (L - k.length - 1) + 1 from by omega]
  rw [List.replicate_succ]
  simp [List.append_assoc]

theorem size_le_capacity (size : Nat) (h : 0 < size) :
    size ≤ payloadFor size * pagesFor size := by
  have h12 : PAGESIZE = 12 := rfl
  rw [payloadFor, pagesFor]
  by_cases hsm : size ≤ PAGESIZE
  · rw [if_pos hsm, if_pos hsm]
    omega
  · rw [if_neg hsm, if_neg hsm]
    by_cases hz : size % (PAGESIZE - 1) = 0
    · rw [if_pos hz]
      rw [h12] at hz ⊢
      omega
    · rw [if_neg hz]
      rw [h12] at *
      have := Nat.div_add_mod size 11
      have hlt : size % 11 < 11 := Nat.mod_lt _ (by omega)
      omega

/-! ## Metadata bit facts for saved entries -/

theorem savedMeta_active (kM vM : Bool) :
    ((if kM then MKC_ISMULTIPLE else 0) ||| MACTIVE |||
      (if vM then MVC_ISMULTIPLE else 0) ||| MKF_STRING) &&& MACTIVE ≠ 0 := by
  cases kM <;> cases vM <;> decide

theorem savedMeta_notEmpty (kM vM : Bool) :
    ((if kM then MKC_ISMULTIPLE else 0) ||| MACTIVE |||
      (if vM then MVC_ISMULTIPLE else 0) ||| MKF_STRING) &&& (MACTIVE ||| MOPEN) ≠ 0 := by
  cases kM <;> cases vM <;> decide

theorem savedMeta_kc (kM vM : Bool) :
    (decide (((if kM then MKC_ISMULTIPLE else 0) ||| MACTIVE |||
      (if vM then MVC_ISMULTIPLE else 0) ||| MKF_STRING) &&& MKC_ISMULTIPLE ≠ 0)) = kM := by
  cases kM <;> cases vM <;> decide

theorem savedMeta_vc (kM vM : Bool) :
    (decide (((if kM then MKC_ISMULTIPLE else 0) ||| MACTIVE |||
      (if vM then MVC_ISMULTIPLE else 0) ||| MKF_STRING) &&& MVC_ISMULTIPLE ≠ 0)) = vM := by
  cases kM <;> cases vM <;> decide

/-! ## Fresh state facts -/

theorem updf_updf_same {α : Type} (f : Nat → α) (n : Nat) (a b : α) :
    updf (updf f n a) n b = updf f n b := by
  funext m
  by_cases h : m = n <;> simp [updf, h]

theorem updateRecordEntries_inactive :
    ∀ (fuel n : Nat) (s : KVATState),
      (∀ j, (s.entries j).metadata &&& MACTIVE = 0) →
      updateRecordEntries s n fuel = s := by
  intro fuel
  induction fuel with
  | zero => intro n s _; rfl
  | succ f ih =>
    intro n s hall
    simp only [updateRecordEntries, readTableEntry, hall n, ne_eq, not_true_eq_false,
      if_false]
    exact ih (n + 1) s hall

theorem updatePageRecord_inactive (s : KVATState)
    (hall : ∀ j, (s.entries j).metadata &&& MACTIVE = 0) :
    updatePageRecord s =
      markPageInRecord { s with pageRecord := fun _ => 0 } 0 true := by
  show updateRecordEntries (markPageInRecord { s with pageRecord := fun _ => 0 } 0 true)
    1 (PAGECOUNT - 1) = _
  apply updateRecordEntries_inactive
  intro j
  exact hall j

theorem freshState_eq : freshState =
    ⟨true, fun _ => emptyEntry, fun _ => List.replicate PAGESIZE 0,
      updf (fun _ => 0) 0 ((0 : Nat) ||| (1 <<< 0))⟩ := by
  show ({ updatePageRecord formattedState with didInit := true } : KVATState) = _
  rw [updatePageRecord_inactive formattedState
    (fun j => by show emptyEntry.metadata &&& MACTIVE = 0; decide)]
  rfl

theorem freshState_entries : freshState.entries = fun _ => emptyEntry := by
  rw [freshState_eq]

theorem freshState_pageMem : freshState.pageMem = fun _ => List.replicate PAGESIZE 0 := by
  rw [freshState_eq]

theorem freshState_didInit : freshState.didInit = true := by
  rw [freshState_eq]

theorem freshState_pageRecord : freshState.pageRecord = fun j => contigByte 1 j := by
  rw [freshState_eq]
  funext j
  show updf (fun _ => 0) 0 ((0 : Nat) ||| (1 <<< 0)) j = contigByte 1 j
  by_cases hj : j = 0
  · subst hj
    rw [updf_same]
    decide
  · rw [updf_other _ _ _ _ hj]
    rw [contigByte]
    rw [if_neg (by omega), if_pos (by omega)]

/-! ## Lookup scan lemmas -/

theorem lookupFrom_allInactive (s : KVATState) (key : List Nat) (part : Bool) (ks : Nat) :
    ∀ (fuel n : Nat),
      (∀ j, n ≤ j → j < n + fuel → (s.entries j).metadata &&& MACTIVE = 0) →
      lookupFrom s key part ks n fuel = 0 := by
  intro fuel
  induction fuel with
  | zero => intro n _; rfl
  | succ f ih =>
    intro n hall
    simp only [lookupFrom, readTableEntry, hall n (le_refl _) (by omega), ne_eq,
      not_true_eq_false, if_false]
    exact ih (n + 1) (fun j h1 h2 => hall j (by omega) (by omega))

/-- The fetched key buffer of an entry whose key chain is a fresh chain of
the NUL-free byte list `k`. -/
theorem fetch_key_bytes (s : KVATState) (k : List Nat) (p : Nat) (mb : Bool)
    (hch : ∀ i, i < pagesFor (k.length + 1) →
      s.pageMem (p + i) = freshChainPage k (k.length + 1) p i)
    (hmb : mb = decide (k.length + 1 > PAGESIZE)) (hp : 1 ≤ p)
    (hfit : p + pagesFor (k.length + 1) ≤ 128) :
    (fetchData s p mb STRINGKEYSTDLEN false).bytes =
      k ++ 0 :: (List.replicate
        (payloadFor (k.length + 1) * pagesFor (k.length + 1) - k.length - 1) 0 ++ [0]) := by
  rw [fetchData_fresh s k (k.length + 1) p STRINGKEYSTDLEN mb hch hmb hp (by omega) hfit]
  show byteSlice k 0 (payloadFor (k.length + 1) * pagesFor (k.length + 1)) ++ [0] = _
  rw [storedKey_form k _ (size_le_capacity (k.length + 1) (by omega))]

/-! ## Saving a new key -/

/-- `KVATSaveValue` of a key not yet present, on a contiguous record: takes
the first empty entry `e0`, writes the key chain at `[M, M+a)` and the value
chain at `[M+a, M+a+b)`, and activates the entry. -/
theorem KVATSaveValue_new (s : KVATState) (key value : List Nat) (vsize e0 M : Nat)
    (hinit : s.didInit = true)
    (hlook : lookupByKey s key false 1 = 0)
    (hempty : getEmptyTableEntryNumber s = e0) (he0 : 1 ≤ e0)
    (hrec : s.pageRecord = fun j => contigByte M j) (hM : 1 ≤ M)
    (hvpos : 0 < vsize)
    (hfit : M + pagesFor (cstrlen key + 1) + pagesFor vsize ≤ 128) :
    KVATSaveValue s key value vsize =
      (KVATException.none,
        ⟨true,
          updf s.entries e0
            ⟨(if (decide (cstrlen key + 1 > PAGESIZE)) = true then MKC_ISMULTIPLE else 0) |||
               MACTIVE ||| (if (decide (vsize > PAGESIZE)) = true then MVC_ISMULTIPLE else 0) |||
               MKF_STRING,
             M, M + pagesFor (cstrlen key + 1), remainsFor vsize % 256⟩,
          freshWrites (freshWrites s.pageMem key (cstrlen key + 1) M) value vsize
            (M + pagesFor (cstrlen key + 1)),
          fun j => contigByte (M + pagesFor (cstrlen key + 1) + pagesFor vsize) j⟩) := by
  have hb := pagesFor_pos vsize
  have ha := pagesFor_pos (cstrlen key + 1)
  simp only [KVATSaveValue, hinit, Bool.not_true, Bool.false_eq_true, if_false, hlook,
    if_pos rfl, if_true, hempty, ne_eq, not_true_eq_false, decide_False,
    if_neg (by omega : ¬ (e0 = 0))]
  rw [writeData_fresh (saveTableEntry s ⟨MOPEN, 0, 0, 0⟩ e0) key (cstrlen key + 1) M
    hrec hM (by omega) (by omega)]
  simp only [if_neg (by omega : ¬ (M = 0))]
  simp only [saveValueTail, Bool.false_eq_true, if_false,
    show (decide (MOPEN &&& MVC_ISMULTIPLE ≠ 0)) = false from by decide]
  rw [writeData_fresh _ value vsize (M + pagesFor (cstrlen key + 1)) rfl (by omega)
    hvpos (by omega)]
  simp only [if_neg (by omega : ¬ (M + pagesFor (cstrlen key + 1) = 0))]
  simp only [saveTableEntry, Prod.mk.injEq, KVATState.mk.injEq, true_and, and_true]
  exact ⟨hinit, updf_updf_same _ _ _ _⟩

theorem lookupByKey_unfold (s : KVATState) (key : List Nat) :
    lookupByKey s key false 1 = lookupFrom s key false (cstrlen key) 1 (PAGECOUNT - 1) := rfl

theorem lookupFrom_inactive_step (s : KVATState) (key : List Nat) (part : Bool)
    (ks n fuel : Nat) (h : (s.entries n).metadata &&& MACTIVE = 0) :
    lookupFrom s key part ks n (fuel + 1) = lookupFrom s key part ks (n + 1) fuel := by
  simp [lookupFrom, readTableEntry, h]

/-- Scanning an entry that stores exactly the searched key stops there. -/
theorem lookupFrom_savedEntry_hit (s : KVATState) (k : List Nat) (n fuel : Nat)
    (kM vM : Bool) (kp vp rem : Nat)
    (hent : s.entries n = ⟨(if kM = true then MKC_ISMULTIPLE else 0) ||| MACTIVE |||
       (if vM = true then MVC_ISMULTIPLE else 0) ||| MKF_STRING, kp, vp, rem⟩)
    (hkM : kM = decide (k.length + 1 > PAGESIZE))
    (hch : ∀ i, i < pagesFor (k.length + 1) →
      s.pageMem (kp + i) = freshChainPage k (k.length + 1) kp i)
    (hk : ∀ c ∈ k, c ≠ 0)
    (hp : 1 ≤ kp) (hfit : kp + pagesFor (k.length + 1) ≤ 128) :
    lookupFrom s k false (cstrlen k) n (fuel + 1) = n := by
  simp only [lookupFrom, readTableEntry, hent]
  rw [if_pos (by exact savedMeta_active kM vM)]
  have hbit : (decide (((if kM = true then MKC_ISMULTIPLE else 0) ||| MACTIVE |||
      (if vM = true then MVC_ISMULTIPLE else 0) ||| MKF_STRING) &&& MKC_ISMULTIPLE ≠ 0)) = kM :=
    savedMeta_kc kM vM
  rw [show ((fetchData s kp (decide (((if kM = true then MKC_ISMULTIPLE else 0) ||| MACTIVE |||
      (if vM = true then MVC_ISMULTIPLE else 0) ||| MKF_STRING) &&& MKC_ISMULTIPLE ≠ 0))
      STRINGKEYSTDLEN false).bytes) = k ++ 0 :: (List.replicate
        (payloadFor (k.length + 1) * pagesFor (k.length + 1) - k.length - 1) 0 ++ [0])
    from by rw [hbit]; exact fetch_key_bytes s k kp kM hch (by rw [hkM]) hp hfit]
  rw [cstrlen_append_zero k _ hk, cstrlen_of_nonzero k hk]
  rw [if_pos ?hcond]
  case hcond =>
    simp only [decide_True, Bool.false_or, Bool.true_and]
    exact cstrncmpEq_prefix _ k k.length (le_refl _)

/-- Scanning an entry that stores a different key steps past it. -/
theorem lookupFrom_savedEntry_miss (s : KVATState) (k k2 : List Nat) (n fuel : Nat)
    (kM vM : Bool) (kp vp rem : Nat)
    (hent : s.entries n = ⟨(if kM = true then MKC_ISMULTIPLE else 0) ||| MACTIVE |||
       (if vM = true then MVC_ISMULTIPLE else 0) ||| MKF_STRING, kp, vp, rem⟩)
    (hkM : kM = decide (k.length + 1 > PAGESIZE))
    (hch : ∀ i, i < pagesFor (k.length + 1) →
      s.pageMem (kp + i) = freshChainPage k (k.length + 1) kp i)
    (hk : ∀ c ∈ k, c ≠ 0) (hk2 : ∀ c ∈ k2, c ≠ 0) (hne : k2 ≠ k)
    (hp : 1 ≤ kp) (hfit : kp + pagesFor (k.length + 1) ≤ 128) :
    lookupFrom s k2 false (cstrlen k2) n (fuel + 1) =
      lookupFrom s k2 false (cstrlen k2) (n + 1) fuel := by
  simp only [lookupFrom, readTableEntry, hent]
  rw [if_pos (by exact savedMeta_active kM vM)]
  have hbit : (decide (((if kM = true then MKC_ISMULTIPLE else 0) ||| MACTIVE |||
      (if vM = true then MVC_ISMULTIPLE else 0) ||| MKF_STRING) &&& MKC_ISMULTIPLE ≠ 0)) = kM :=
    savedMeta_kc kM vM
  rw [show ((fetchData s kp (decide (((if kM = true then MKC_ISMULTIPLE else 0) ||| MACTIVE |||
      (if vM = true then MVC_ISMULTIPLE else 0) ||| MKF_STRING) &&& MKC_ISMULTIPLE ≠ 0))
      STRINGKEYSTDLEN false).bytes) = k ++ 0 :: (List.replicate
        (payloadFor (k.length + 1) * pagesFor (k.length + 1) - k.length - 1) 0 ++ [0])
    from by rw [hbit]; exact fetch_key_bytes s k kp kM hch (by rw [hkM]) hp hfit]
  rw [cstrlen_append_zero k _ hk, cstrlen_of_nonzero k2 hk2]
  rw [if_neg ?hcond]
  case hcond =>
    intro hcond
    rw [Bool.and_eq_true, Bool.or_eq_true] at hcond
    obtain ⟨hlen | hlen, hcmp⟩ := hcond
    · simp at hlen
    · rw [Bool.and_eq_true, decide_eq_true_eq] at hlen
      exact hne (key_match_unique _ k2 k hk2 hlen.2 hcmp)

theorem usub32_le (a b : Nat) (h : b ≤ a) : usub32 a b = a - b := by
  simp [usub32, h]

theorem remainsFor_lt (size : Nat) : remainsFor size < 256 := by
  have h12 : PAGESIZE = 12 := rfl
  by_cases hs : size ≤ PAGESIZE
  · rw [h12] at hs
    simp [remainsFor, payloadFor, hs, h12]
    by_cases hm : size % 12 = 0 <;> simp [hm] <;> omega
  · rw [h12] at hs
    simp [remainsFor, payloadFor, hs, h12]
    by_cases hm : size % 11 = 0 <;> simp [hm] <;> omega

theorem payload_mul_pages (size : Nat) (h : 0 < size) :
    payloadFor size * pagesFor size = size + remainsFor size := by
  have h12 : PAGESIZE = 12 := rfl
  by_cases hs : size ≤ PAGESIZE
  · rw [h12] at hs
    simp [payloadFor, pagesFor, remainsFor, hs, h12]
    by_cases hm : size % 12 = 0 <;> simp [hm] <;> omega
  · rw [h12] at hs
    simp [payloadFor, pagesFor, remainsFor, hs, h12]
    by_cases hm : size % 11 = 0 <;> simp [hm] <;> omega

theorem lookupByKey_fresh (key : List Nat) : lookupByKey freshState key false 1 = 0 := by
  rw [lookupByKey_unfold]
  exact lookupFrom_allInactive freshState key false (cstrlen key) (PAGECOUNT - 1) 1
    (fun j _ _ => by
      rw [freshState_entries]
      show emptyEntry.metadata &&& MACTIVE = 0
      decide)

theorem getEmptyTableEntryNumber_fresh : getEmptyTableEntryNumber freshState = 1 := by
  rw [freshState_eq]
  rfl

/-- State of the engine after saving `v` under key `k` on a fresh store. -/
def savedState (k v : List Nat) : KVATState :=
  ⟨true,
   updf (fun _ => emptyEntry) 1
     ⟨(if (decide (k.length + 1 > PAGESIZE)) = true then MKC_ISMULTIPLE else 0) ||| MACTIVE |||
        (if (decide (v.length > PAGESIZE)) = true then MVC_ISMULTIPLE else 0) ||| MKF_STRING,
      1, 1 + pagesFor (k.length + 1), remainsFor v.length % 256⟩,
   freshWrites (freshWrites (fun _ => List.replicate PAGESIZE 0) k (k.length + 1) 1) v v.length
     (1 + pagesFor (k.length + 1)),
   fun j => contigByte (1 + pagesFor (k.length + 1) + pagesFor v.length) j⟩

theorem save_fresh (k v : List Nat) (hk0 : ∀ c ∈ k, c ≠ 0) (hv : 0 < v.length)
    (hfit : 1 + pagesFor (k.length + 1) + pagesFor v.length ≤ 128) :
    KVATSaveValue freshState k v v.length = (KVATException.none, savedState k v) := by
  have hcs : cstrlen k = k.length := cstrlen_of_nonzero k hk0
  have h := KVATSaveValue_new freshState k v v.length 1 1 freshState_didInit
    (lookupByKey_fresh k) getEmptyTableEntryNumber_fresh (le_refl 1)
    freshState_pageRecord (le_refl 1) hv (by rw [hcs]; exact hfit)
  rw [hcs, freshState_entries, freshState_pageMem] at h
  exact h

/-- `KVATRetrieveValue` on a hit: fetches the value chain of the found entry. -/
theorem KVATRetrieveValue_found (s : KVATState) (key : List Nat) (bufSize n : Nat)
    (hinit : s.didInit = true) (hn : lookupByKey s key false 1 = n) (hn0 : n ≠ 0) :
    KVATRetrieveValue s key false bufSize =
      ⟨KVATException.none,
       some (some (fetchData s (s.entries n).valuePage
         (decide ((s.entries n).metadata &&& MVC_ISMULTIPLE ≠ 0)) bufSize false).bytes),
       some (usub32 (fetchData s (s.entries n).valuePage
         (decide ((s.entries n).metadata &&& MVC_ISMULTIPLE ≠ 0)) bufSize false).maxSize
         (s.entries n).remains)⟩ := by
  simp only [KVATRetrieveValue, hinit, Bool.not_true, Bool.false_eq_true, if_false, hn,
    readTableEntry]
  rw [if_neg hn0]

theorem savedState_entries_one (k v : List Nat) :
    (savedState k v).entries 1 =
      ⟨(if (decide (k.length + 1 > PAGESIZE)) = true then MKC_ISMULTIPLE else 0) ||| MACTIVE |||
         (if (decide (v.length > PAGESIZE)) = true then MVC_ISMULTIPLE else 0) ||| MKF_STRING,
       1, 1 + pagesFor (k.length + 1), remainsFor v.length % 256⟩ := rfl

theorem savedState_keyChain (k v : List Nat) :
    ∀ i, i < pagesFor (k.length + 1) →
      (savedState k v).pageMem (1 + i) = freshChainPage k (k.length + 1) 1 i := by
  intro i hi
  show freshWrites (freshWrites (fun _ => List.replicate PAGESIZE 0) k (k.length + 1) 1) v
    v.length (1 + pagesFor (k.length + 1)) (1 + i) = _
  simp only [freshWrites]
  rw [if_neg (by omega), if_pos ⟨by omega, by omega⟩, Nat.add_sub_cancel_left]

theorem savedState_valueChain (k v : List Nat) :
    ∀ i, i < pagesFor v.length →
      (savedState k v).pageMem (1 + pagesFor (k.length + 1) + i) =
        freshChainPage v v.length (1 + pagesFor (k.length + 1)) i := by
  intro i hi
  show freshWrites (freshWrites (fun _ => List.replicate PAGESIZE 0) k (k.length + 1) 1) v
    v.length (1 + pagesFor (k.length + 1)) (1 + pagesFor (k.length + 1) + i) = _
  simp only [freshWrites]
  rw [if_pos ⟨by omega, by omega⟩, Nat.add_sub_cancel_left]

theorem lookup_savedState (k v : List Nat) (hk0 : ∀ c ∈ k, c ≠ 0)
    (hfitk : 1 + pagesFor (k.length + 1) ≤ 128) :
    lookupByKey (savedState k v) k false 1 = 1 := by
  rw [lookupByKey_unfold, show PAGECOUNT - 1 = 126 + 1 from rfl]
  exact lookupFrom_savedEntry_hit (savedState k v) k 1 126
    (decide (k.length + 1 > PAGESIZE)) (decide (v.length > PAGESIZE))
    1 (1 + pagesFor (k.length + 1)) (remainsFor v.length % 256)
    (savedState_entries_one k v) rfl (savedState_keyChain k v) hk0 (le_refl 1) hfitk

theorem retrieve_savedState (k v : List Nat) (hk0 : ∀ c ∈ k, c ≠ 0) (hv : 0 < v.length)
    (hfit : 1 + pagesFor (k.length + 1) + pagesFor v.length ≤ 128) :
    KVATRetrieveValue (savedState k v) k false 0 =
      ⟨KVATException.none,
       some (some (v ++ (List.replicate (remainsFor v.length) 0 ++ [0]))),
       some v.length⟩ := by
  have hpk := pagesFor_pos (k.length + 1)
  have hpv := pagesFor_pos v.length
  rw [KVATRetrieveValue_found (savedState k v) k 0 1 rfl
    (lookup_savedState k v hk0 (by omega)) (by omega)]
  rw [savedState_entries_one k v]
  show (⟨KVATException.none,
      some (some (fetchData (savedState k v) (1 + pagesFor (k.length + 1))
        (decide (((if (decide (k.length + 1 > PAGESIZE)) = true then MKC_ISMULTIPLE else 0) |||
          MACTIVE ||| (if (decide (v.length > PAGESIZE)) = true then MVC_ISMULTIPLE else 0) |||
          MKF_STRING) &&& MVC_ISMULTIPLE ≠ 0)) 0 false).bytes),
      some (usub32 (fetchData (savedState k v) (1 + pagesFor (k.length + 1))
        (decide (((if (decide (k.length + 1 > PAGESIZE)) = true then MKC_ISMULTIPLE else 0) |||
          MACTIVE ||| (if (decide (v.length > PAGESIZE)) = true then MVC_ISMULTIPLE else 0) |||
          MKF_STRING) &&& MVC_ISMULTIPLE ≠ 0)) 0 false).maxSize
        (remainsFor v.length % 256))⟩ : RetrieveResult) = _
  rw [savedMeta_vc (decide (k.length + 1 > PAGESIZE)) (decide (v.length > PAGESIZE))]
  rw [fetchData_fresh (savedState k v) v v.length (1 + pagesFor (k.length + 1)) 0
    (decide (v.length > PAGESIZE)) (savedState_valueChain k v) rfl (by omega) hv (by omega)]
  rw [show (⟨byteSlice v 0 (payloadFor v.length * pagesFor v.length) ++ [0],
      payloadFor v.length * pagesFor v.length⟩ : FetchResult).maxSize =
      payloadFor v.length * pagesFor v.length from rfl]
  rw [show (⟨byteSlice v 0 (payloadFor v.length * pagesFor v.length) ++ [0],
      payloadFor v.length * pagesFor v.length⟩ : FetchResult).bytes =
      byteSlice v 0 (payloadFor v.length * pagesFor v.length) ++ [0] from rfl]
  have hmul := payload_mul_pages v.length hv
  rw [Nat.mod_eq_of_lt (remainsFor_lt v.length)]
  rw [usub32_le _ _ (by omega)]
  rw [byteSlice_eq_append v (payloadFor v.length * pagesFor v.length) (by omega)]
  rw [show payloadFor v.length * pagesFor v.length - v.length = remainsFor v.length
    from by omega]
  rw [List.append_assoc]
  rw [show payloadFor v.length * pagesFor v.length - remainsFor v.length = v.length
    from by omega]

/-- C1: round-trip. For every key of non-zero bytes with 1 ≤ |k| and every value
with 1 ≤ |v| that fits in storage alongside the key chain, saving `v` under `k`
on a freshly initialized engine succeeds, and retrieving `k` afterwards succeeds,
reports size `|v|`, and returns a buffer whose first `|v|` bytes are exactly `v`. -/
theorem C1_roundtrip (k v : List Nat) (hk0 : ∀ c ∈ k, c ≠ 0) (hk : 1 ≤ k.length)
    (hv : 1 ≤ v.length)
    (hfit : 1 + pagesFor (k.length + 1) + pagesFor v.length ≤ 128) :
    ∃ s', KVATSaveValue freshState k v v.length = (KVATException.none, s') ∧
      (KVATRetrieveValue s' k false 0).exc = KVATException.none ∧
      (KVATRetrieveValue s' k false 0).sizeOut = some v.length ∧
      ∃ rest, (KVATRetrieveValue s' k false 0).ptrOut = some (some (v ++ rest)) := by
  refine ⟨savedState k v, save_fresh k v hk0 hv hfit, ?_, ?_, ?_⟩
  · rw [retrieve_savedState k v hk0 hv hfit]
  · rw [retrieve_savedState k v hk0 hv hfit]
  · exact ⟨_, by rw [retrieve_savedState k v hk0 hv hfit]⟩

/-- Witness for C1 at key "k" = [107] and value [104, 105]. -/
theorem C1_witness :
    ∃ s', KVATSaveValue freshState [107] [104, 105] 2 = (KVATException.none, s') ∧
      (KVATRetrieveValue s' [107] false 0).exc = KVATException.none ∧
      (KVATRetrieveValue s' [107] false 0).sizeOut = some 2 ∧
      ∃ rest, (KVATRetrieveValue s' [107] false 0).ptrOut =
        some (some ([104, 105] ++ rest)) :=
  C1_roundtrip [107] [104, 105] (by decide) (by decide) (by decide) (by decide)

theorem KVATRetrieveValue_notFound (s : KVATState) (key : List Nat) (bufSize : Nat)
    (hinit : s.didInit = true) (hn : lookupByKey s key false 1 = 0) :
    KVATRetrieveValue s key false bufSize =
      ⟨KVATException.notFound, some Option.none, Option.none⟩ := by
  simp [KVATRetrieveValue, hinit, hn]

theorem KVATDeleteValue_notFound (s : KVATState) (key : List Nat)
    (hinit : s.didInit = true) (hn : lookupByKey s key false 1 = 0) :
    KVATDeleteValue s key = (KVATException.notFound, s) := by
  simp [KVATDeleteValue, hinit, hn]

/-- Deleting the single saved key succeeds and deactivates every table entry. -/
theorem delete_savedState (k v : List Nat) (hk0 : ∀ c ∈ k, c ≠ 0)
    (hfitk : 1 + pagesFor (k.length + 1) ≤ 128) :
    ∃ s2, KVATDeleteValue (savedState k v) k = (KVATException.none, s2) ∧
      s2.didInit = true ∧
      (∀ j, (s2.entries j).metadata &&& MACTIVE = 0) := by
  have hinit : (savedState k v).didInit = true := rfl
  have hlook := lookup_savedState k v hk0 hfitk
  simp only [KVATDeleteValue, hinit, Bool.not_true, Bool.false_eq_true, if_false, hlook]
  rw [if_neg one_ne_zero]
  refine ⟨_, rfl, ?_, ?_⟩
  · rw [show ∀ t : KVATState, ∀ e p, (saveTableEntry t e p).didInit = t.didInit
        from fun _ _ _ => rfl]
    rw [followPageChain_didInit, followPageChain_didInit]
    exact hinit
  · intro j
    show (updf (followPageChainAndSetPageRecord (followPageChainAndSetPageRecord
        (savedState k v) _ _ _) _ _ _).entries 1 _ j).metadata &&& MACTIVE = 0
    rw [followPageChain_entries, followPageChain_entries]
    by_cases hj : j = 1
    · subst hj
      rw [updf_same]
      show MDEFAULT &&& MACTIVE = 0
      decide
    · rw [updf_other _ _ _ _ hj]
      show (updf (fun _ => emptyEntry) 1 _ j).metadata &&& MACTIVE = 0
      rw [updf_other _ _ _ _ hj]
      decide

/-- C8: delete semantics. After a successful save of `v` under `k` on the fresh
engine, a delete of `k` succeeds; a retrieve of `k` afterwards returns notFound,
and a second delete of `k` also returns notFound. -/
theorem C8_delete_semantics (k v : List Nat) (hk0 : ∀ c ∈ k, c ≠ 0)
    (hv : 1 ≤ v.length)
    (hfit : 1 + pagesFor (k.length + 1) + pagesFor v.length ≤ 128) :
    ∃ s1 s2, KVATSaveValue freshState k v v.length = (KVATException.none, s1) ∧
      KVATDeleteValue s1 k = (KVATException.none, s2) ∧
      (KVATRetrieveValue s2 k false 0).exc = KVATException.notFound ∧
      (KVATDeleteValue s2 k).1 = KVATException.notFound := by
  have hpv := pagesFor_pos v.length
  obtain ⟨s2, hdel, hinit2, hinact⟩ := delete_savedState k v hk0 (by omega)
  have hlook2 : lookupByKey s2 k false 1 = 0 := by
    rw [lookupByKey_unfold]
    exact lookupFrom_allInactive s2 k false (cstrlen k) (PAGECOUNT - 1) 1
      (fun j _ _ => hinact j)
  refine ⟨savedState k v, s2, save_fresh k v hk0 hv hfit, hdel, ?_, ?_⟩
  · rw [KVATRetrieveValue_notFound s2 k 0 hinit2 hlook2]
  · rw [KVATDeleteValue_notFound s2 k hinit2 hlook2]

/-- Witness for C8 at key [120] ("x") and value [49] ("1"). -/
theorem C8_witness :
    ∃ s1 s2, KVATSaveValue freshState [120] [49] 1 = (KVATException.none, s1) ∧
      KVATDeleteValue s1 [120] = (KVATException.none, s2) ∧
      (KVATRetrieveValue s2 [120] false 0).exc = KVATException.notFound ∧
      (KVATDeleteValue s2 [120]).1 = KVATException.notFound :=
  C8_delete_semantics [120] [49] (by decide) (by decide) (by decide)

theorem findEmptyEntry_occupied (s : KVATState) (n fuel : Nat)
    (h : (s.entries n).metadata &&& (MACTIVE ||| MOPEN) ≠ 0) :
    findEmptyEntry s n (fuel + 1) = findEmptyEntry s (n + 1) fuel := by
  simp [findEmptyEntry, readTableEntry, h]

theorem findEmptyEntry_empty (s : KVATState) (n fuel : Nat)
    (h : (s.entries n).metadata &&& (MACTIVE ||| MOPEN) = 0) :
    findEmptyEntry s n (fuel + 1) = n := by
  simp [findEmptyEntry, readTableEntry, h]

theorem getEmptyTableEntryNumber_saved (k v : List Nat) :
    getEmptyTableEntryNumber (savedState k v) = 2 := by
  show findEmptyEntry (savedState k v) 1 (126 + 1) = 2
  rw [findEmptyEntry_occupied _ 1 126
    (by rw [savedState_entries_one]; exact savedMeta_notEmpty _ _)]
  rw [show (126 : Nat) = 125 + 1 from rfl]
  have h2 : ((savedState k v).entries 2).metadata &&& (MACTIVE ||| MOPEN) = 0 := by
    rw [show (savedState k v).entries 2 = emptyEntry from rfl]
    decide
  exact findEmptyEntry_empty _ 2 125 h2

theorem lookup_savedState_other (k v k2 : List Nat) (hk0 : ∀ c ∈ k, c ≠ 0)
    (hk20 : ∀ c ∈ k2, c ≠ 0) (hne : k2 ≠ k)
    (hfitk : 1 + pagesFor (k.length + 1) ≤ 128) :
    lookupByKey (savedState k v) k2 false 1 = 0 := by
  rw [lookupByKey_unfold, show PAGECOUNT - 1 = 126 + 1 from rfl]
  rw [lookupFrom_savedEntry_miss (savedState k v) k k2 1 126
    (decide (k.length + 1 > PAGESIZE)) (decide (v.length > PAGESIZE))
    1 (1 + pagesFor (k.length + 1)) (remainsFor v.length % 256)
    (savedState_entries_one k v) rfl (savedState_keyChain k v) hk0 hk20 hne
    (le_refl 1) hfitk]
  refine lookupFrom_allInactive _ _ _ _ 126 2 (fun j hj _ => ?_)
  show (updf (fun _ => emptyEntry) 1 _ j).metadata &&& MACTIVE = 0
  rw [updf_other _ _ _ _ (by omega)]
  decide

/-- State after `save(k1, v1); save(k2, v2)` on a fresh store. -/
def doubleState (k1 v1 k2 v2 : List Nat) : KVATState :=
  ⟨true,
   updf (updf (fun _ => emptyEntry) 1
     ⟨(if (decide (k1.length + 1 > PAGESIZE)) = true then MKC_ISMULTIPLE else 0) ||| MACTIVE |||
        (if (decide (v1.length > PAGESIZE)) = true then MVC_ISMULTIPLE else 0) ||| MKF_STRING,
      1, 1 + pagesFor (k1.length + 1), remainsFor v1.length % 256⟩) 2
     ⟨(if (decide (k2.length + 1 > PAGESIZE)) = true then MKC_ISMULTIPLE else 0) ||| MACTIVE |||
        (if (decide (v2.length > PAGESIZE)) = true then MVC_ISMULTIPLE else 0) ||| MKF_STRING,
      1 + pagesFor (k1.length + 1) + pagesFor v1.length,
      1 + pagesFor (k1.length + 1) + pagesFor v1.length + pagesFor (k2.length + 1),
      remainsFor v2.length % 256⟩,
   freshWrites (freshWrites ((savedState k1 v1).pageMem) k2 (k2.length + 1)
       (1 + pagesFor (k1.length + 1) + pagesFor v1.length)) v2 v2.length
     (1 + pagesFor (k1.length + 1) + pagesFor v1.length + pagesFor (k2.length + 1)),
   fun j => contigByte (1 + pagesFor (k1.length + 1) + pagesFor v1.length +
     pagesFor (k2.length + 1) + pagesFor v2.length) j⟩

theorem save_second (k1 v1 k2 v2 : List Nat) (hk10 : ∀ c ∈ k1, c ≠ 0)
    (hk20 : ∀ c ∈ k2, c ≠ 0) (hne : k2 ≠ k1) (hv2 : 0 < v2.length)
    (hfit : 1 + pagesFor (k1.length + 1) + pagesFor v1.length +
      pagesFor (k2.length + 1) + pagesFor v2.length ≤ 128) :
    KVATSaveValue (savedState k1 v1) k2 v2 v2.length =
      (KVATException.none, doubleState k1 v1 k2 v2) := by
  have hcs : cstrlen k2 = k2.length := cstrlen_of_nonzero k2 hk20
  have hpk1 := pagesFor_pos (k1.length + 1)
  have hpv1 := pagesFor_pos v1.length
  have hpk2 := pagesFor_pos (k2.length + 1)
  have hpv2 := pagesFor_pos v2.length
  have h := KVATSaveValue_new (savedState k1 v1) k2 v2 v2.length 2
    (1 + pagesFor (k1.length + 1) + pagesFor v1.length) rfl
    (lookup_savedState_other k1 v1 k2 hk10 hk20 hne (by omega))
    (getEmptyTableEntryNumber_saved k1 v1) (by omega)
    rfl (by omega) hv2 (by rw [hcs]; omega)
  rw [hcs] at h
  rw [show (savedState k1 v1).entries = updf (fun _ => emptyEntry) 1
    ⟨(if (decide (k1.length + 1 > PAGESIZE)) = true then MKC_ISMULTIPLE else 0) ||| MACTIVE |||
       (if (decide (v1.length > PAGESIZE)) = true then MVC_ISMULTIPLE else 0) ||| MKF_STRING,
     1, 1 + pagesFor (k1.length + 1), remainsFor v1.length % 256⟩ from rfl] at h
  exact h

theorem range'_snoc (s n : Nat) : List.range' s n ++ [s + n] = List.range' s (n + 1) := by
  rw [List.range'_concat]
  simp

theorem range'_glue (s m n : Nat) :
    List.range' s m ++ List.range' (s + m) n = List.range' s (m + n) := by
  have h := List.range'_append s m n 1
  rw [Nat.one_mul] at h
  rw [h, Nat.add_comm n m]

theorem freshChainPage_head (data : List Nat) (size m i : Nat) (hsz : PAGESIZE < size) :
    (freshChainPage data size m i).headD 0 =
      if i + 1 = pagesFor size then 0 else m + i + 1 := by
  rw [freshChainPage, if_neg (by omega : ¬ size ≤ PAGESIZE)]
  rfl

/-- The page loop of `writeData` on a reuse chain of `pagesFor szOld ≥ i + 1`
pages at `p` (old multi-page chain, so `reuseMult = true`), with a contiguous
record topping at `M`: it succeeds, recycles the old pages in order, continues
on fresh pages from `M` once the old chain runs out, and never touches pages
below `p` or in `[p + pagesFor szOld, M)`. -/
theorem writeDataLoop_reuse_multi (data dataOld : List Nat) (isMulti : Bool)
    (pds szOld n p M : Nat) (s0 : KVATState)
    (hszOld : PAGESIZE < szOld) (hp : 1 ≤ p) (hpM : p + pagesFor szOld ≤ M)
    (hMn : M + n ≤ 128)
    (hold : ∀ j, j < pagesFor szOld → s0.pageMem (p + j) = freshChainPage dataOld szOld p j) :
    ∀ (fuel i : Nat) (L : WDLoop) (PU0 : List Nat), i + fuel = n → 0 < fuel →
      i < pagesFor szOld →
      L.reuseNext = p + i → L.nextPageN = p + i → L.dryI = 0 →
      L.pagesUsed = PU0 ++ List.range' p i →
      L.st.didInit = s0.didInit → L.st.entries = s0.entries →
      L.st.pageRecord = (fun j => contigByte M j) →
      (∀ q, q < p ∨ p + i ≤ q → L.st.pageMem q = s0.pageMem q) →
      ∃ (rn dry npn : Nat) (st' : KVATState),
        writeDataLoop data true isMulti pds n i L fuel =
          (false, ⟨rn, dry, npn,
            (PU0 ++ List.range' p (min n (pagesFor szOld))) ++
              List.range' M (n - pagesFor szOld), st'⟩) ∧
        st'.didInit = s0.didInit ∧ st'.entries = s0.entries ∧
        (∀ q, q < p → st'.pageMem q = s0.pageMem q) ∧
        (∀ q, p + pagesFor szOld ≤ q → q < M → st'.pageMem q = s0.pageMem q) := by
  intro fuel
  induction fuel with
  | zero => intro i L PU0 h1 h2; omega
  | succ f ih =>
    intro i L PU0 h1 _ hib hrn hnp hdry hpu hdi hen hrec hpm
    obtain ⟨rn, dry, np0, pu, st⟩ := L
    obtain ⟨di, en, pm, pr⟩ := st
    simp only at hrn hnp hdry hpu hdi hen hrec hpm
    subst hrn hnp hdry hpu hdi hen hrec
    have hpmi : pm (p + i) = freshChainPage dataOld szOld p i := by
      have h := hpm (p + i) (Or.inr (le_refl _))
      simp only at h
      rw [h, hold i hib]
    have hc1 : (decide (p + i ≠ 0) && true) = true := by
      simp only [Bool.and_true, decide_eq_true_eq]
      omega
    by_cases hi1b : i + 1 = pagesFor szOld
    · -- this iteration consumes the last page of the old chain
      by_cases hlast : i + 1 < n
      · -- and the write continues on fresh pages from the record
        simp only [writeDataLoop, readNextPageNumber, hpmi,
          freshChainPage_head dataOld szOld p i hszOld, if_pos hi1b, hc1, if_true,
          if_neg (show ¬ (p + i = 0) from by omega), if_pos hlast,
          if_neg (show ¬ ((0 : Nat) ≠ 0) from by omega)]
        rw [getEmpty_contig_take _ M rfl (by omega) (by omega)]
        rw [writeDataLoop_fresh data true isMulti pds n (M - (i + 1)) (by omega) (by omega)
          f (i + 1) _ (by omega) (by omega) rfl
          (by show M = M - (i + 1) + (i + 1); omega)
          (by show (fun j => contigByte (M + 1) j) =
                fun j => contigByte (M - (i + 1) + (i + 1) + 1) j
              rw [show M - (i + 1) + (i + 1) + 1 = M + 1 from by omega])]
        simp only [show M - (i + 1) + (i + 1) = M from by omega,
          show min n (pagesFor szOld) = i + 1 from by omega,
          show n - pagesFor szOld = f from by omega, List.append_assoc, range'_snoc]
        exact ⟨_, _, _, _, rfl, rfl, rfl,
          fun q hq => by
            show (if M ≤ q ∧ q < M - (i + 1) + n then _ else _) = _
            rw [if_neg (by omega), updf_other _ _ _ _ (by omega : q ≠ p + i)]
            exact hpm q (Or.inl hq),
          fun q hq1 hq2 => by
            show (if M ≤ q ∧ q < M - (i + 1) + n then _ else _) = _
            rw [if_neg (by omega), updf_other _ _ _ _ (by omega : q ≠ p + i)]
            exact hpm q (Or.inr (by omega))⟩
      · -- the new chain also ends here
        have hf0 : f = 0 := by omega
        subst hf0
        simp only [writeDataLoop, readNextPageNumber, hpmi,
          freshChainPage_head dataOld szOld p i hszOld, if_pos hi1b, hc1, if_true,
          if_neg (show ¬ (p + i = 0) from by omega), if_neg hlast]
        simp only [show min n (pagesFor szOld) = i + 1 from by omega,
          show n - pagesFor szOld = 0 from by omega, List.range'_zero, List.append_nil,
          List.append_assoc, range'_snoc]
        exact ⟨_, _, _, _, rfl, rfl, rfl,
          fun q hq => by
            show updf pm (p + i) _ q = _
            rw [updf_other _ _ _ _ (by omega : q ≠ p + i)]
            exact hpm q (Or.inl hq),
          fun q hq1 hq2 => by
            show updf pm (p + i) _ q = _
            rw [updf_other _ _ _ _ (by omega : q ≠ p + i)]
            exact hpm q (Or.inr (by omega))⟩
    · -- the old chain continues past this iteration
      by_cases hlast : i + 1 < n
      · simp only [writeDataLoop, readNextPageNumber, hpmi,
          freshChainPage_head dataOld szOld p i hszOld, if_neg hi1b, hc1, if_true,
          if_neg (show ¬ (p + i + 1 = 0) from by omega),
          if_neg (show ¬ (p + i = 0) from by omega), if_pos hlast,
          if_pos (show p + i + 1 ≠ 0 from by omega)]
        refine ih (i + 1) _ PU0 (by omega) (by omega) (by omega) rfl rfl rfl ?_ rfl rfl rfl ?_
        · show (PU0 ++ List.range' p i) ++ [p + i] = PU0 ++ List.range' p (i + 1)
          rw [List.append_assoc, range'_snoc]
        · intro q hq
          show updf pm (p + i) _ q = _
          rw [updf_other _ _ _ _ (by omega : q ≠ p + i)]
          rcases hq with h | h
          · exact hpm q (Or.inl h)
          · exact hpm q (Or.inr (by omega))
      · have hf0 : f = 0 := by omega
        subst hf0
        simp only [writeDataLoop, readNextPageNumber, hpmi,
          freshChainPage_head dataOld szOld p i hszOld, if_neg hi1b, hc1, if_true,
          if_neg (show ¬ (p + i + 1 = 0) from by omega),
          if_neg (show ¬ (p + i = 0) from by omega), if_neg hlast]
        simp only [show min n (pagesFor szOld) = i + 1 from by omega,
          show n - pagesFor szOld = 0 from by omega, List.range'_zero, List.append_nil,
          List.append_assoc, range'_snoc]
        exact ⟨_, _, _, _, rfl, rfl, rfl,
          fun q hq => by
            show updf pm (p + i) _ q = _
            rw [updf_other _ _ _ _ (by omega : q ≠ p + i)]
            exact hpm q (Or.inl hq),
          fun q hq1 hq2 => by
            show updf pm (p + i) _ q = _
            rw [updf_other _ _ _ _ (by omega : q ≠ p + i)]
            exact hpm q (Or.inr (by omega))⟩

/-- The page loop of `writeData` reusing a single-page old chain at `p`
(`reuseMult = false`): it recycles `p`, continues on fresh pages from `M`,
and never touches pages below `p` or in `[p + 1, M)`. -/
theorem writeDataLoop_reuse_single (data : List Nat) (isMulti : Bool)
    (pds n p M : Nat) (s0 : KVATState)
    (hp : 1 ≤ p) (hpM : p + 1 ≤ M) (hMn : M + n ≤ 128) (hn : 0 < n)
    (hrec : s0.pageRecord = fun j => contigByte M j) :
    ∃ (rn dry npn : Nat) (st' : KVATState),
      writeDataLoop data false isMulti pds n 0 ⟨p, 0, p, [], s0⟩ n =
        (false, ⟨rn, dry, npn,
          List.range' p (min n 1) ++ List.range' M (n - 1), st'⟩) ∧
      st'.didInit = s0.didInit ∧ st'.entries = s0.entries ∧
      (∀ q, q < p → st'.pageMem q = s0.pageMem q) ∧
      (∀ q, p + 1 ≤ q → q < M → st'.pageMem q = s0.pageMem q) := by
  obtain ⟨m, rfl⟩ : ∃ m, n = m + 1 := ⟨n - 1, by omega⟩
  have hbf : (decide (p ≠ 0) && false) = false := Bool.and_false _
  by_cases hm : 0 < m
  · simp only [writeDataLoop, hbf, Bool.false_eq_true, if_false,
      if_pos (show p ≠ 0 from by omega), if_neg (show ¬ (p = 0) from by omega),
      if_pos (show 0 + 1 < m + 1 from by omega),
      if_neg (show ¬ ((0 : Nat) ≠ 0) from by omega), if_true]
    rw [getEmpty_contig_take _ M hrec (by omega) (by omega)]
    rw [writeDataLoop_fresh data false isMulti pds (m + 1) (M - 1) (by omega) (by omega)
      m 1 _ (by omega) hm rfl (by show M = M - 1 + 1; omega)
      (by show (fun j => contigByte (M + 1) j) = fun j => contigByte (M - 1 + 1 + 1) j
          rw [show M - 1 + 1 + 1 = M + 1 from by omega])]
    simp only [show M - 1 + 1 = M from by omega, show min (m + 1) 1 = 1 from by omega,
      show m + 1 - 1 = m from by omega, List.range'_one, List.nil_append]
    exact ⟨_, _, _, _, rfl, rfl, rfl,
      fun q hq => by
        show (if M ≤ q ∧ q < M - 1 + (m + 1) then _ else _) = _
        rw [if_neg (by omega), updf_other _ _ _ _ (by omega : q ≠ p)],
      fun q hq1 hq2 => by
        show (if M ≤ q ∧ q < M - 1 + (m + 1) then _ else _) = _
        rw [if_neg (by omega), updf_other _ _ _ _ (by omega : q ≠ p)]⟩
  · have hm0 : m = 0 := by omega
    subst hm0
    simp only [writeDataLoop, hbf, Bool.false_eq_true, if_false,
      if_pos (show p ≠ 0 from by omega), if_neg (show ¬ (p = 0) from by omega),
      if_neg (show ¬ (0 + 1 < 0 + 1) from by omega)]
    simp only [show min (0 + 1) 1 = 1 from by omega, show 0 + 1 - 1 = 0 from by omega,
      List.range'_one, List.range'_zero, List.append_nil, List.nil_append]
    exact ⟨_, _, _, _, rfl, rfl, rfl,
      fun q hq => by
        show updf s0.pageMem p _ q = _
        rw [updf_other _ _ _ _ (by omega : q ≠ p)],
      fun q hq1 hq2 => by
        show updf s0.pageMem p _ q = _
        rw [updf_other _ _ _ _ (by omega : q ≠ p)]⟩

theorem headD_range'_append (s m : Nat) (t : List Nat) (h : 0 < m) :
    (List.range' s m ++ t).headD 0 = s := by
  cases m with
  | zero => omega
  | succ k => rw [List.range'_succ]; rfl

theorem followFinal_frames (st' : KVATState) (rn : Nat) (rm : Bool) :
    (if rn ≠ 0 then followPageChainAndSetPageRecord st' rn false rm else st').didInit
      = st'.didInit ∧
    (if rn ≠ 0 then followPageChainAndSetPageRecord st' rn false rm else st').entries
      = st'.entries ∧
    (if rn ≠ 0 then followPageChainAndSetPageRecord st' rn false rm else st').pageMem
      = st'.pageMem := by
  by_cases hrn : rn ≠ 0
  · rw [if_pos hrn]
    exact ⟨followPageChain_didInit _ _ _ _, followPageChain_entries _ _ _ _,
      followPageChain_pageMem _ _ _ _⟩
  · rw [if_neg hrn]
    exact ⟨rfl, rfl, rfl⟩

/-- A successful `writeData` reusing the chain of an old `szOld`-byte write at
page `p`, on a contiguous record topping at `M`: returns first page `p`, the
multi flag and remains of the new size, and leaves every page below `p` and
every page in `[p + pagesFor szOld, M)` untouched, as well as the entry table. -/
theorem writeData_reuse (s : KVATState) (dataOld data : List Nat) (szOld size p M : Nat)
    (hrec : s.pageRecord = fun j => contigByte M j)
    (hold : ∀ i, i < pagesFor szOld → s.pageMem (p + i) = freshChainPage dataOld szOld p i)
    (hszOld : 0 < szOld) (hsz : 0 < size) (hp : 1 ≤ p) (hpM : p + pagesFor szOld ≤ M)
    (hfit : M + pagesFor size ≤ 128) :
    ∃ (pu : List Nat) (st' : KVATState),
      writeData s data size p (decide (szOld > PAGESIZE)) =
        ⟨p, decide (size > PAGESIZE), remainsFor size, pu, st'⟩ ∧
      st'.didInit = s.didInit ∧ st'.entries = s.entries ∧
      (∀ q, q < p → st'.pageMem q = s.pageMem q) ∧
      (∀ q, p + pagesFor szOld ≤ q → q < M → st'.pageMem q = s.pageMem q) := by
  have h12 : PAGESIZE = 12 := rfl
  have hns : ¬ (size = 0) := by omega
  have hMge : 1 ≤ M := by omega
  have hnewpos := pagesFor_pos size
  have holdpos := pagesFor_pos szOld
  by_cases hsm : size ≤ PAGESIZE
  · -- new value fits in one page
    have hn1 : pagesFor size = 1 := by simp [pagesFor, hsm]
    have hdec : (decide (size > PAGESIZE)) = false := by
      simp only [decide_eq_false_iff_not]; omega
    have hrem : (if size % PAGESIZE ≠ 0 then PAGESIZE - size % PAGESIZE else 0)
        = remainsFor size := by
      by_cases hz : size % PAGESIZE = 0 <;> simp [remainsFor, payloadFor, hsm, hz]
    simp only [writeData, if_neg hns, hdec, Bool.false_eq_true, if_false, Bool.false_and,
      if_neg (by decide : ¬ ((1 : Nat) > PAGECOUNT)),
      if_pos (show p ≠ 0 from by omega), Nat.sub_zero]
    rw [hn1] at hfit
    by_cases hom : szOld ≤ PAGESIZE
    · have hbo : pagesFor szOld = 1 := by simp [pagesFor, hom]
      have hdecO : (decide (szOld > PAGESIZE)) = false := by
        simp only [decide_eq_false_iff_not]; omega
      rw [hbo] at hpM
      simp only [hdecO]
      obtain ⟨rn, dry, npn, st', heq, hdi, hen, hq1, hq2⟩ :=
        writeDataLoop_reuse_single data false PAGESIZE 1 p M s hp hpM (by omega)
          (by omega) hrec
      rw [heq]
      obtain ⟨hfd, hfe, hfp⟩ := followFinal_frames st' rn false
      exact ⟨_, _, by
          show (⟨(List.range' p (min 1 1) ++ List.range' M (1 - 1)).headD 0, false,
              (if size % PAGESIZE ≠ 0 then PAGESIZE - size % PAGESIZE else 0),
              List.range' p (min 1 1) ++ List.range' M (1 - 1),
              (if rn ≠ 0 then followPageChainAndSetPageRecord st' rn false false else st')⟩ :
              WriteResult) = _
          rw [headD_range'_append p _ _ (by omega), hrem], by rw [hfd, hdi], by rw [hfe, hen],
        fun q hq => by
          rw [hfp]
          exact hq1 q hq,
        fun q hq1p hq2p => by
          rw [hfp]
          rw [hbo] at hq1p
          exact hq2 q hq1p hq2p⟩
    · have hgtO : PAGESIZE < szOld := by omega
      have hdecO : (decide (szOld > PAGESIZE)) = true := by
        simp only [decide_eq_true_eq]; omega
      simp only [hdecO]
      obtain ⟨rn, dry, npn, st', heq, hdi, hen, hq1, hq2⟩ :=
        writeDataLoop_reuse_multi data dataOld false PAGESIZE szOld 1 p M s hgtO hp hpM
          (by omega) (fun j hj => hold j hj) 1 0 ⟨p, 0, p, [], s⟩ []
          (by omega) (by omega) (by omega)
          rfl rfl rfl (by simp) rfl rfl hrec (fun q _ => rfl)
      rw [heq]
      obtain ⟨hfd, hfe, hfp⟩ := followFinal_frames st' rn true
      exact ⟨_, _, by
          show (⟨((([] : List Nat) ++ List.range' p (min 1 (pagesFor szOld))) ++
                List.range' M (1 - pagesFor szOld)).headD 0, false,
              (if size % PAGESIZE ≠ 0 then PAGESIZE - size % PAGESIZE else 0),
              (([] : List Nat) ++ List.range' p (min 1 (pagesFor szOld))) ++
                List.range' M (1 - pagesFor szOld),
              (if rn ≠ 0 then followPageChainAndSetPageRecord st' rn false true else st')⟩ :
              WriteResult) = _
          rw [List.nil_append, headD_range'_append p _ _ (by omega), hrem], by rw [hfd, hdi], by rw [hfe, hen],
        fun q hq => by
          rw [hfp]
          exact hq1 q hq,
        fun q hq1p hq2p => by
          rw [hfp]
          exact hq2 q hq1p hq2p⟩
  · -- new value spans multiple pages
    have hgt : PAGESIZE < size := by omega
    have hdec : (decide (size > PAGESIZE)) = true := by
      simp only [decide_eq_true_eq]; omega
    have hnval : pagesFor size = size / (PAGESIZE - 1) +
        (if size % (PAGESIZE - 1) = 0 then 0 else 1) := by
      rw [pagesFor, if_neg hsm]
    have hnbig : pagesFor size ≤ 127 := by omega
    have hdivlt : size / (PAGESIZE - 1) < 256 := by
      rw [h12] at hnval ⊢
      rcases Nat.eq_zero_or_pos (size % 11) with hz | hz
      · rw [hnval, if_pos (by omega)] at hnbig; omega
      · rw [hnval, if_neg (by omega)] at hnbig; omega
    have hmod : size / (PAGESIZE - 1) % 256 = size / (PAGESIZE - 1) :=
      Nat.mod_eq_of_lt hdivlt
    have hp2 : (if (decide ¬ size % (PAGESIZE - 1) = 0) = true then
        (size / (PAGESIZE - 1) % 256 + 1) % 256 else size / (PAGESIZE - 1) % 256)
        = pagesFor size := by
      rw [hmod]
      by_cases hz : size % (PAGESIZE - 1) = 0
      · rw [if_neg (by simp [hz]), hnval, if_pos hz]
        omega
      · rw [if_pos (by simp [hz]), hnval, if_neg hz, Nat.mod_eq_of_lt (by omega)]
    have hrem : (if size % (PAGESIZE - 1) ≠ 0 then
        (PAGESIZE - 1) - size % (PAGESIZE - 1) else 0) = remainsFor size := by
      by_cases hz : size % (PAGESIZE - 1) = 0 <;> simp [remainsFor, payloadFor, hsm, hz]
    simp only [writeData, if_neg hns, hdec, if_true, Bool.true_and,
      if_pos (show p ≠ 0 from by omega)]
    rw [hp2]
    rw [if_neg (by have hc : PAGECOUNT = 128 := rfl; omega : ¬ (pagesFor size > PAGECOUNT))]
    by_cases hom : szOld ≤ PAGESIZE
    · have hbo : pagesFor szOld = 1 := by simp [pagesFor, hom]
      have hdecO : (decide (szOld > PAGESIZE)) = false := by
        simp only [decide_eq_false_iff_not]; omega
      rw [hbo] at hpM
      simp only [hdecO]
      obtain ⟨rn, dry, npn, st', heq, hdi, hen, hq1, hq2⟩ :=
        writeDataLoop_reuse_single data true (PAGESIZE - 1) (pagesFor size) p M s hp hpM
          (by omega) (by omega) hrec
      rw [heq]
      obtain ⟨hfd, hfe, hfp⟩ := followFinal_frames st' rn false
      exact ⟨_, _, by
          show (⟨(List.range' p (min (pagesFor size) 1) ++
                List.range' M (pagesFor size - 1)).headD 0, true,
              (if size % (PAGESIZE - 1) ≠ 0 then
                (PAGESIZE - 1) - size % (PAGESIZE - 1) else 0),
              List.range' p (min (pagesFor size) 1) ++ List.range' M (pagesFor size - 1),
              (if rn ≠ 0 then followPageChainAndSetPageRecord st' rn false false else st')⟩ :
              WriteResult) = _
          rw [headD_range'_append p _ _ (by omega), hrem], by rw [hfd, hdi], by rw [hfe, hen],
        fun q hq => by
          rw [hfp]
          exact hq1 q hq,
        fun q hq1p hq2p => by
          rw [hfp]
          rw [hbo] at hq1p
          exact hq2 q hq1p hq2p⟩
    · have hgtO : PAGESIZE < szOld := by omega
      have hdecO : (decide (szOld > PAGESIZE)) = true := by
        simp only [decide_eq_true_eq]; omega
      simp only [hdecO]
      obtain ⟨rn, dry, npn, st', heq, hdi, hen, hq1, hq2⟩ :=
        writeDataLoop_reuse_multi data dataOld true (PAGESIZE - 1) szOld (pagesFor size)
          p M s hgtO hp hpM (by omega) (fun j hj => hold j hj)
          (pagesFor size) 0 ⟨p, 0, p, [], s⟩ []
          (by omega) (by omega) (by omega)
          rfl rfl rfl (by simp) rfl rfl hrec (fun q _ => rfl)
      rw [heq]
      obtain ⟨hfd, hfe, hfp⟩ := followFinal_frames st' rn true
      exact ⟨_, _, by
          show (⟨((([] : List Nat) ++
                List.range' p (min (pagesFor size) (pagesFor szOld))) ++
                List.range' M (pagesFor size - pagesFor szOld)).headD 0, true,
              (if size % (PAGESIZE - 1) ≠ 0 then
                (PAGESIZE - 1) - size % (PAGESIZE - 1) else 0),
              (([] : List Nat) ++ List.range' p (min (pagesFor size) (pagesFor szOld))) ++
                List.range' M (pagesFor size - pagesFor szOld),
              (if rn ≠ 0 then followPageChainAndSetPageRecord st' rn false true else st')⟩ :
              WriteResult) = _
          rw [List.nil_append, headD_range'_append p _ _ (by omega), hrem], by rw [hfd, hdi], by rw [hfe, hen],
        fun q hq => by
          rw [hfp]
          exact hq1 q hq,
        fun q hq1p hq2p => by
          rw [hfp]
          exact hq2 q hq1p hq2p⟩

theorem savedMeta_open_kc (kM vM : Bool) :
    (((if kM then MKC_ISMULTIPLE else 0) ||| MACTIVE |||
       (if vM then MVC_ISMULTIPLE else 0) ||| MKF_STRING) ||| MOPEN) &&& MKC_ISMULTIPLE =
      (if kM then MKC_ISMULTIPLE else 0) := by
  cases kM <;> cases vM <;> decide

theorem savedMeta_open_vc (kM vM : Bool) :
    (decide ((((if kM then MKC_ISMULTIPLE else 0) ||| MACTIVE |||
      (if vM then MVC_ISMULTIPLE else 0) ||| MKF_STRING) ||| MOPEN) &&&
        MVC_ISMULTIPLE ≠ 0)) = vM := by
  cases kM <;> cases vM <;> decide

theorem doubleState_entries_one (k1 v1 k2 v2 : List Nat) :
    (doubleState k1 v1 k2 v2).entries 1 =
      ⟨(if (decide (k1.length + 1 > PAGESIZE)) = true then MKC_ISMULTIPLE else 0) ||| MACTIVE |||
         (if (decide (v1.length > PAGESIZE)) = true then MVC_ISMULTIPLE else 0) ||| MKF_STRING,
       1, 1 + pagesFor (k1.length + 1), remainsFor v1.length % 256⟩ := rfl

theorem doubleState_entries_two (k1 v1 k2 v2 : List Nat) :
    (doubleState k1 v1 k2 v2).entries 2 =
      ⟨(if (decide (k2.length + 1 > PAGESIZE)) = true then MKC_ISMULTIPLE else 0) ||| MACTIVE |||
         (if (decide (v2.length > PAGESIZE)) = true then MVC_ISMULTIPLE else 0) ||| MKF_STRING,
       1 + pagesFor (k1.length + 1) + pagesFor v1.length,
       1 + pagesFor (k1.length + 1) + pagesFor v1.length + pagesFor (k2.length + 1),
       remainsFor v2.length % 256⟩ := rfl

theorem doubleState_pageMem_low (k1 v1 k2 v2 : List Nat) (q : Nat)
    (hq : q < 1 + pagesFor (k1.length + 1) + pagesFor v1.length) :
    (doubleState k1 v1 k2 v2).pageMem q = (savedState k1 v1).pageMem q := by
  have h1 := pagesFor_pos (k2.length + 1)
  show freshWrites (freshWrites _ k2 (k2.length + 1) _) v2 v2.length _ q = _
  simp only [freshWrites]
  rw [if_neg (by omega), if_neg (by omega)]

theorem doubleState_k1keyChain (k1 v1 k2 v2 : List Nat) :
    ∀ i, i < pagesFor (k1.length + 1) →
      (doubleState k1 v1 k2 v2).pageMem (1 + i) = freshChainPage k1 (k1.length + 1) 1 i := by
  intro i hi
  rw [doubleState_pageMem_low k1 v1 k2 v2 (1 + i)
    (by have := pagesFor_pos v1.length; omega)]
  exact savedState_keyChain k1 v1 i hi

theorem doubleState_v1Chain (k1 v1 k2 v2 : List Nat) :
    ∀ i, i < pagesFor v1.length →
      (doubleState k1 v1 k2 v2).pageMem (1 + pagesFor (k1.length + 1) + i) =
        freshChainPage v1 v1.length (1 + pagesFor (k1.length + 1)) i := by
  intro i hi
  rw [doubleState_pageMem_low k1 v1 k2 v2 _ (by omega)]
  exact savedState_valueChain k1 v1 i hi

theorem doubleState_k2keyChain (k1 v1 k2 v2 : List Nat) :
    ∀ i, i < pagesFor (k2.length + 1) →
      (doubleState k1 v1 k2 v2).pageMem (1 + pagesFor (k1.length + 1) + pagesFor v1.length + i) =
        freshChainPage k2 (k2.length + 1)
          (1 + pagesFor (k1.length + 1) + pagesFor v1.length) i := by
  intro i hi
  show freshWrites (freshWrites _ k2 (k2.length + 1) _) v2 v2.length _ _ = _
  simp only [freshWrites]
  rw [if_neg (by omega), if_pos ⟨by omega, by omega⟩, Nat.add_sub_cancel_left]

theorem doubleState_v2Chain (k1 v1 k2 v2 : List Nat) :
    ∀ i, i < pagesFor v2.length →
      (doubleState k1 v1 k2 v2).pageMem
          (1 + pagesFor (k1.length + 1) + pagesFor v1.length + pagesFor (k2.length + 1) + i) =
        freshChainPage v2 v2.length
          (1 + pagesFor (k1.length + 1) + pagesFor v1.length + pagesFor (k2.length + 1)) i := by
  intro i hi
  show freshWrites (freshWrites _ k2 (k2.length + 1) _) v2 v2.length _ _ = _
  simp only [freshWrites]
  rw [if_pos ⟨by omega, by omega⟩, Nat.add_sub_cancel_left]

theorem lookup_double_k1 (k1 v1 k2 v2 : List Nat) (hk10 : ∀ c ∈ k1, c ≠ 0)
    (hfitk : 1 + pagesFor (k1.length + 1) ≤ 128) :
    lookupByKey (doubleState k1 v1 k2 v2) k1 false 1 = 1 := by
  rw [lookupByKey_unfold, show PAGECOUNT - 1 = 126 + 1 from rfl]
  exact lookupFrom_savedEntry_hit (doubleState k1 v1 k2 v2) k1 1 126
    (decide (k1.length + 1 > PAGESIZE)) (decide (v1.length > PAGESIZE))
    1 (1 + pagesFor (k1.length + 1)) (remainsFor v1.length % 256)
    (doubleState_entries_one k1 v1 k2 v2) rfl (doubleState_k1keyChain k1 v1 k2 v2)
    hk10 (le_refl 1) hfitk

/-- Overwriting `k1` (stored first) with a new value on the two-entry state:
succeeds, rewrites only entry 1, and leaves every page below `k1`'s value
chain and every page of `k2`'s chains untouched. -/
theorem save_overwrite (k1 v1 k2 v2 v1' : List Nat) (hk10 : ∀ c ∈ k1, c ≠ 0)
    (hv1 : 0 < v1.length) (hv1' : 0 < v1'.length)
    (hfit3 : 1 + pagesFor (k1.length + 1) + pagesFor v1.length +
      pagesFor (k2.length + 1) + pagesFor v2.length + pagesFor v1'.length ≤ 128) :
    ∃ s3, KVATSaveValue (doubleState k1 v1 k2 v2) k1 v1' v1'.length =
        (KVATException.none, s3) ∧
      s3.didInit = true ∧
      s3.entries = updf (doubleState k1 v1 k2 v2).entries 1
        ⟨(if (decide (k1.length + 1 > PAGESIZE)) = true then MKC_ISMULTIPLE else 0) ||| MACTIVE |||
           (if (decide (v1'.length > PAGESIZE)) = true then MVC_ISMULTIPLE else 0) ||| MKF_STRING,
         1, 1 + pagesFor (k1.length + 1), remainsFor v1'.length % 256⟩ ∧
      (∀ q, q < 1 + pagesFor (k1.length + 1) →
        s3.pageMem q = (doubleState k1 v1 k2 v2).pageMem q) ∧
      (∀ q, 1 + pagesFor (k1.length + 1) + pagesFor v1.length ≤ q →
        q < 1 + pagesFor (k1.length + 1) + pagesFor v1.length +
          pagesFor (k2.length + 1) + pagesFor v2.length →
        s3.pageMem q = (doubleState k1 v1 k2 v2).pageMem q) := by
  have hA := pagesFor_pos (k1.length + 1)
  have hB := pagesFor_pos v1.length
  have hC := pagesFor_pos (k2.length + 1)
  have hD := pagesFor_pos v2.length
  have hinit : (doubleState k1 v1 k2 v2).didInit = true := rfl
  have hl1 := lookup_double_k1 k1 v1 k2 v2 hk10 (by omega)
  obtain ⟨pu, st', heqw, hdiw, henw, hq1w, hq2w⟩ :=
    writeData_reuse (saveTableEntry (doubleState k1 v1 k2 v2)
        ⟨((if (decide (k1.length + 1 > PAGESIZE)) = true then MKC_ISMULTIPLE else 0) |||
           MACTIVE |||
           (if (decide (v1.length > PAGESIZE)) = true then MVC_ISMULTIPLE else 0) |||
           MKF_STRING) ||| MOPEN,
         1, 1 + pagesFor (k1.length + 1), remainsFor v1.length % 256⟩ 1)
      v1 v1' v1.length v1'.length (1 + pagesFor (k1.length + 1))
      (1 + pagesFor (k1.length + 1) + pagesFor v1.length +
        pagesFor (k2.length + 1) + pagesFor v2.length)
      rfl (fun i hi => doubleState_v1Chain k1 v1 k2 v2 i hi) hv1 hv1'
      (by omega) (by omega) (by omega)
  simp only [KVATSaveValue, hinit, Bool.not_true, Bool.false_eq_true, if_false, hl1,
    if_neg (show ¬ ((1 : Nat) = 0) from by omega),
    if_pos (show (1 : Nat) ≠ 0 from by omega),
    readTableEntry, doubleState_entries_one, saveValueTail, if_true,
    savedMeta_open_vc (decide (k1.length + 1 > PAGESIZE)) (decide (v1.length > PAGESIZE)),
    savedMeta_open_kc (decide (k1.length + 1 > PAGESIZE)) (decide (v1.length > PAGESIZE))]
  rw [heqw]
  simp only [if_neg (show ¬ (1 + pagesFor (k1.length + 1) = 0) from by omega)]
  refine ⟨_, rfl, ?_, ?_, ?_, ?_⟩
  · show st'.didInit = true
    rw [hdiw]
    rfl
  · show updf st'.entries 1 _ = _
    rw [henw]
    show updf (updf (doubleState k1 v1 k2 v2).entries 1 _) 1 _ = _
    rw [updf_updf_same]
  · intro q hq
    show st'.pageMem q = _
    exact hq1w q hq
  · intro q hq1p hq2p
    show st'.pageMem q = _
    exact hq2w q hq1p hq2p

/-- After the overwrite of `k1`, retrieving `k2` still returns `v2`. -/
theorem retrieve_after_overwrite (k1 v1 k2 v2 v1' : List Nat) (s3 : KVATState)
    (hk10 : ∀ c ∈ k1, c ≠ 0) (hk20 : ∀ c ∈ k2, c ≠ 0) (hne : k2 ≠ k1)
    (hv2 : 0 < v2.length)
    (hfit2 : 1 + pagesFor (k1.length + 1) + pagesFor v1.length +
      pagesFor (k2.length + 1) + pagesFor v2.length ≤ 128)
    (hdi : s3.didInit = true)
    (hent : s3.entries = updf (doubleState k1 v1 k2 v2).entries 1
      ⟨(if (decide (k1.length + 1 > PAGESIZE)) = true then MKC_ISMULTIPLE else 0) ||| MACTIVE |||
         (if (decide (v1'.length > PAGESIZE)) = true then MVC_ISMULTIPLE else 0) ||| MKF_STRING,
       1, 1 + pagesFor (k1.length + 1), remainsFor v1'.length % 256⟩)
    (hlow : ∀ q, q < 1 + pagesFor (k1.length + 1) →
      s3.pageMem q = (doubleState k1 v1 k2 v2).pageMem q)
    (hhigh : ∀ q, 1 + pagesFor (k1.length + 1) + pagesFor v1.length ≤ q →
      q < 1 + pagesFor (k1.length + 1) + pagesFor v1.length +
        pagesFor (k2.length + 1) + pagesFor v2.length →
      s3.pageMem q = (doubleState k1 v1 k2 v2).pageMem q) :
    KVATRetrieveValue s3 k2 false 0 =
      ⟨KVATException.none,
       some (some (v2 ++ (List.replicate (remainsFor v2.length) 0 ++ [0]))),
       some v2.length⟩ := by
  have hA := pagesFor_pos (k1.length + 1)
  have hB := pagesFor_pos v1.length
  have hC := pagesFor_pos (k2.length + 1)
  have hD := pagesFor_pos v2.length
  have hlk : lookupByKey s3 k2 false 1 = 2 := by
    rw [lookupByKey_unfold, show PAGECOUNT - 1 = 126 + 1 from rfl]
    rw [lookupFrom_savedEntry_miss s3 k1 k2 1 126 (decide (k1.length + 1 > PAGESIZE))
      (decide (v1'.length > PAGESIZE)) 1 (1 + pagesFor (k1.length + 1))
      (remainsFor v1'.length % 256)
      (by rw [hent]; exact updf_same _ _ _) rfl
      (fun i hi => by
        rw [hlow (1 + i) (by omega)]
        exact doubleState_k1keyChain k1 v1 k2 v2 i hi)
      hk10 hk20 hne (le_refl 1) (by omega)]
    rw [show (126 : Nat) = 125 + 1 from rfl]
    exact lookupFrom_savedEntry_hit s3 k2 2 125 (decide (k2.length + 1 > PAGESIZE))
      (decide (v2.length > PAGESIZE)) (1 + pagesFor (k1.length + 1) + pagesFor v1.length)
      (1 + pagesFor (k1.length + 1) + pagesFor v1.length + pagesFor (k2.length + 1))
      (remainsFor v2.length % 256)
      (by rw [hent, updf_other _ _ _ _ (by omega)]
          exact doubleState_entries_two k1 v1 k2 v2) rfl
      (fun i hi => by
        rw [hhigh _ (by omega) (by omega)]
        exact doubleState_k2keyChain k1 v1 k2 v2 i hi)
      hk20 (by omega) (by omega)
  rw [KVATRetrieveValue_found s3 k2 0 2 hdi hlk (by omega)]
  rw [show s3.entries 2 =
      ⟨(if (decide (k2.length + 1 > PAGESIZE)) = true then MKC_ISMULTIPLE else 0) ||| MACTIVE |||
         (if (decide (v2.length > PAGESIZE)) = true then MVC_ISMULTIPLE else 0) ||| MKF_STRING,
       1 + pagesFor (k1.length + 1) + pagesFor v1.length,
       1 + pagesFor (k1.length + 1) + pagesFor v1.length + pagesFor (k2.length + 1),
       remainsFor v2.length % 256⟩ from by
    rw [hent, updf_other _ _ _ _ (by omega)]
    exact doubleState_entries_two k1 v1 k2 v2]
  show (⟨KVATException.none,
      some (some (fetchData s3
        (1 + pagesFor (k1.length + 1) + pagesFor v1.length + pagesFor (k2.length + 1))
        (decide (((if (decide (k2.length + 1 > PAGESIZE)) = true then MKC_ISMULTIPLE else 0) |||
          MACTIVE ||| (if (decide (v2.length > PAGESIZE)) = true then MVC_ISMULTIPLE else 0) |||
          MKF_STRING) &&& MVC_ISMULTIPLE ≠ 0)) 0 false).bytes),
      some (usub32 (fetchData s3
        (1 + pagesFor (k1.length + 1) + pagesFor v1.length + pagesFor (k2.length + 1))
        (decide (((if (decide (k2.length + 1 > PAGESIZE)) = true then MKC_ISMULTIPLE else 0) |||
          MACTIVE ||| (if (decide (v2.length > PAGESIZE)) = true then MVC_ISMULTIPLE else 0) |||
          MKF_STRING) &&& MVC_ISMULTIPLE ≠ 0)) 0 false).maxSize
        (remainsFor v2.length % 256))⟩ : RetrieveResult) = _
  rw [savedMeta_vc (decide (k2.length + 1 > PAGESIZE)) (decide (v2.length > PAGESIZE))]
  rw [fetchData_fresh s3 v2 v2.length
    (1 + pagesFor (k1.length + 1) + pagesFor v1.length + pagesFor (k2.length + 1)) 0
    (decide (v2.length > PAGESIZE))
    (fun i hi => by
      rw [hhigh _ (by omega) (by omega)]
      exact doubleState_v2Chain k1 v1 k2 v2 i hi)
    rfl (by omega) hv2 (by omega)]
  rw [show (⟨byteSlice v2 0 (payloadFor v2.length * pagesFor v2.length) ++ [0],
      payloadFor v2.length * pagesFor v2.length⟩ : FetchResult).maxSize =
      payloadFor v2.length * pagesFor v2.length from rfl]
  rw [show (⟨byteSlice v2 0 (payloadFor v2.length * pagesFor v2.length) ++ [0],
      payloadFor v2.length * pagesFor v2.length⟩ : FetchResult).bytes =
      byteSlice v2 0 (payloadFor v2.length * pagesFor v2.length) ++ [0] from rfl]
  have hmul := payload_mul_pages v2.length hv2
  rw [Nat.mod_eq_of_lt (remainsFor_lt v2.length)]
  rw [usub32_le _ _ (by omega)]
  rw [byteSlice_eq_append v2 (payloadFor v2.length * pagesFor v2.length) (by omega)]
  rw [show payloadFor v2.length * pagesFor v2.length - v2.length = remainsFor v2.length
    from by omega]
  rw [List.append_assoc]
  rw [show payloadFor v2.length * pagesFor v2.length - remainsFor v2.length = v2.length
    from by omega]

/-- C7: overwrite preserves other entries. For distinct keys `k1 ≠ k2` of
non-zero bytes and values that all fit in storage, after
save(k1,v1); save(k2,v2); save(k1,v1') on the fresh engine — all three
succeeding — retrieving `k2` succeeds and still returns exactly `v2`. -/
theorem C7_overwrite_preserves (k1 v1 k2 v2 v1' : List Nat)
    (hk10 : ∀ c ∈ k1, c ≠ 0) (hk20 : ∀ c ∈ k2, c ≠ 0) (hne : k2 ≠ k1)
    (hv1 : 1 ≤ v1.length) (hv2 : 1 ≤ v2.length) (hv1' : 1 ≤ v1'.length)
    (hfit : 1 + pagesFor (k1.length + 1) + pagesFor v1.length +
      pagesFor (k2.length + 1) + pagesFor v2.length + pagesFor v1'.length ≤ 128) :
    ∃ s1 s2 s3,
      KVATSaveValue freshState k1 v1 v1.length = (KVATException.none, s1) ∧
      KVATSaveValue s1 k2 v2 v2.length = (KVATException.none, s2) ∧
      KVATSaveValue s2 k1 v1' v1'.length = (KVATException.none, s3) ∧
      (KVATRetrieveValue s3 k2 false 0).exc = KVATException.none ∧
      (KVATRetrieveValue s3 k2 false 0).sizeOut = some v2.length ∧
      ∃ rest, (KVATRetrieveValue s3 k2 false 0).ptrOut = some (some (v2 ++ rest)) := by
  have hpv1' := pagesFor_pos v1'.length
  have hpk2 := pagesFor_pos (k2.length + 1)
  have hpv2 := pagesFor_pos v2.length
  obtain ⟨s3, heq3, hdi3, hent3, hlow3, hhigh3⟩ :=
    save_overwrite k1 v1 k2 v2 v1' hk10 hv1 hv1' hfit
  have hret := retrieve_after_overwrite k1 v1 k2 v2 v1' s3 hk10 hk20 hne hv2
    (by omega) hdi3 hent3 hlow3 hhigh3
  refine ⟨savedState k1 v1, doubleState k1 v1 k2 v2, s3,
    save_fresh k1 v1 hk10 hv1 (by omega),
    save_second k1 v1 k2 v2 hk10 hk20 hne hv2 (by omega), heq3, ?_, ?_, ?_⟩
  · rw [hret]
  · rw [hret]
  · exact ⟨_, by rw [hret]⟩

/-- Witness for C7 at k1 = "a", v1 = "1", k2 = "b", v2 = "2", v1' = "34". -/
theorem C7_witness :
    ∃ s1 s2 s3,
      KVATSaveValue freshState [97] [49] 1 = (KVATException.none, s1) ∧
      KVATSaveValue s1 [98] [50] 1 = (KVATException.none, s2) ∧
      KVATSaveValue s2 [97] [51, 52] 2 = (KVATException.none, s3) ∧
      (KVATRetrieveValue s3 [98] false 0).exc = KVATException.none ∧
      (KVATRetrieveValue s3 [98] false 0).sizeOut = some 1 ∧
      ∃ rest, (KVATRetrieveValue s3 [98] false 0).ptrOut = some (some ([50] ++ rest)) :=
  C7_overwrite_preserves [97] [49] [98] [50] [51, 52] (by decide) (by decide) (by decide)
    (by decide) (by decide) (by decide) (by decide)

end KVAT
